import Mathlib

/-!
# cert-manager-webhook-strato: record reconciliation

A shallow embedding of `main.go` (the Strato DNS-01 webhook solver) and the
properties of its validation, record derivation and read-modify-write logic.

Modelling conventions.

* Go `string` values are Lean `String`s (sequences of code points).  The model
  therefore covers strings holding valid UTF-8, which is what the JSON decoder
  and the Kubernetes API deliver.
* `strings.HasSuffix` and `strings.TrimSuffix` are written out with the length
  test and the slice expressions of the Go standard library.
* `strings.ToLower` maps every rune through `unicode.ToLower`.  The ASCII
  branch of `unicode.ToLower` is written out; the case table it consults for
  the other runes is a parameter (`lower`), and the Unicode table itself is
  given as `unicodeLowerCase`.
* A Go function returning `error` returns `Except String Unit`; a function
  returning `(T, error)` returns `Except String T`.
* The external collaborators (JSON decoder, secret store, Strato client) are
  parameters.  The typed Kubernetes client refuses an empty resource name
  before it asks the store, which `secretsGet` writes out.  The remote zone is an explicit state `σ` threaded through the
  calls, and every run records the sequence of mutex and provider events.
-/

namespace Strato

/-! ## Data model -/

deriving instance DecidableEq for Except

/-- The record type `strato.DNSRecord`: a (type, prefix, value) triple. -/
structure DNSRecord where
  Type_ : String
  Prefix : String
  Value : String
deriving DecidableEq, Repr

/-- The zone snapshot `strato.DNSConfig`: two policy markers and the records. -/
structure DNSConfig where
  DMARCType : String
  SPFType : String
  Records : List DNSRecord
deriving DecidableEq, Repr

/-- The per-request configuration `stratoDNSProviderConfig`. -/
structure stratoDNSProviderConfig where
  SecretRef : String
  API : String
  Domain : String
  Order : String
deriving DecidableEq, Repr

/-- The credentials `stratoDNSProviderCredentials`. -/
structure stratoDNSProviderCredentials where
  Identity : String
  Password : String
deriving DecidableEq, Repr

/-- The fields of `v1alpha1.ChallengeRequest` that the solver reads.  `Config`
is the raw JSON blob, `none` for a nil pointer. -/
structure ChallengeRequest where
  ResourceNamespace : String
  ResolvedZone : String
  ResolvedFQDN : String
  Key : String
  Config : Option String
deriving DecidableEq, Repr

/-! ## String helpers of the Go standard library -/

/-- Go `strings.HasSuffix`: `len(s) >= len(suffix) && s[len(s)-len(suffix):] == suffix`. -/
def hasSuffix (s suffix : String) : Bool :=
  decide (s.length ≥ suffix.length) &&
    decide (s.data.drop (s.length - suffix.length) = suffix.data)

/-- Go `strings.TrimSuffix`: drop `suffix` from the end of `s` when it is there. -/
def trimSuffix (s suffix : String) : String :=
  if hasSuffix s suffix then ⟨s.data.take (s.length - suffix.length)⟩ else s

/-- Go `unicode.ToLower`: a rune up to `MaxASCII` is handled inline (`A`..`Z`
are moved by `'a' - 'A'`, every other ASCII rune is returned as it is); any
other rune goes through the case table, `lower` standing for
`unicode.To(unicode.LowerCase, r)`. -/
def unicodeToLower (lower : Char → Char) (r : Char) : Char :=
  if r.toNat ≤ 0x7F then
    if 'A'.toNat ≤ r.toNat ∧ r.toNat ≤ 'Z'.toNat then
      Char.ofNat (r.toNat + ('a'.toNat - 'A'.toNat))
    else r
  else lower r

/-- Go `strings.ToLower`: every rune of `s` mapped through `unicode.ToLower`. -/
def toLower (lower : Char → Char) (s : String) : String :=
  ⟨s.data.map (unicodeToLower lower)⟩

/-! ## Pure helpers of `main.go` -/

/-- The loop of `contains` (main.go 182-189). -/
def contains : List DNSRecord → DNSRecord → Bool
  | [], _ => false
  | entry :: rest, record =>
    if entry.Type_ = record.Type_ ∧ entry.Prefix = record.Prefix ∧ entry.Value = record.Value then
      true
    else
      contains rest record

/-- The zero value `stratoDNSProviderConfig{}`. -/
def zeroConfig : stratoDNSProviderConfig :=
  { SecretRef := "", API := "", Domain := "", Order := "" }

/-- The function `loadConfig` (main.go 145-156); `jsonUnmarshal` stands for
`json.Unmarshal` into a fresh config. -/
def loadConfig (jsonUnmarshal : String → Except String stratoDNSProviderConfig)
    (cfgJSON : Option String) : Except String stratoDNSProviderConfig :=
  match cfgJSON with
  | none => .ok zeroConfig
  | some raw =>
    match jsonUnmarshal raw with
    | .error err => .error ("error decoding solver config: " ++ err)
    | .ok cfg => .ok cfg

/-- The function `prevalidate` (main.go 191-205). -/
def prevalidate (cfg : stratoDNSProviderConfig) (ch : ChallengeRequest) : Except String Unit :=
  if ch.ResolvedFQDN = "" ∨ ch.ResolvedZone = "" then
    .error "resolved FQDN or resolved zone is empty"
  else if ch.ResolvedZone ≠ cfg.Domain ++ "." ∧ !hasSuffix ch.ResolvedZone (cfg.Domain ++ ".") then
    .error ("resolved zone '" ++ ch.ResolvedZone ++ "' does not match configured domain '"
      ++ cfg.Domain ++ "'")
  else if !hasSuffix ch.ResolvedFQDN ("." ++ ch.ResolvedZone) then
    .error ("resolved FQDN '" ++ ch.ResolvedFQDN ++ "' does not end with resolved zone '"
      ++ ch.ResolvedZone ++ "'")
  else
    .ok ()

/-- The record literal built in `processRecord` (main.go 224-228). -/
def desiredRecord (lower : Char → Char) (cfg : stratoDNSProviderConfig)
    (ch : ChallengeRequest) : DNSRecord :=
  { Type_ := "TXT"
    Prefix := toLower lower (trimSuffix ch.ResolvedFQDN ("." ++ cfg.Domain ++ "."))
    Value := ch.Key }

/-! ## Collaborators, events and runs -/

/-- The two provider calls of `strato.StratoClient` that the solver uses, over
a remote zone state `σ`.  Each call returns its result and the next state. -/
structure StratoClient (σ : Type) where
  GetDNSConfiguration : σ → Except String DNSConfig × σ
  SetDNSConfiguration : DNSConfig → σ → Except String Unit × σ

/-- The collaborators outside `main.go`: the JSON decoder, the Kubernetes
secret store (namespace, name ↦ the secret data), the client constructor
`strato.NewStratoClient` and the case table that `unicode.ToLower` consults
for the runes above `MaxASCII`. -/
structure Host (σ : Type) where
  jsonUnmarshal : String → Except String stratoDNSProviderConfig
  getSecret : String → String → Except String (List (String × String))
  NewStratoClient : String → String → String → String → String → Except String (StratoClient σ)
  lower : Char → Char

/-- What one run can be observed to do: mutex operations of the solver and
calls to the provider, in program order. -/
inductive Event where
  | Lock
  | Unlock
  | GetDNSConfiguration
  | SetDNSConfiguration (cfg : DNSConfig)
deriving DecidableEq, Repr

/-- The outcome of a run: the returned error (or none), the remote state left
behind and the events of the run. -/
structure Run (σ : Type) where
  result : Except String Unit
  remote : σ
  trace : List Event

/-- The configurations handed to `SetDNSConfiguration` in a trace, in order. -/
def writes : List Event → List DNSConfig
  | [] => []
  | Event.SetDNSConfiguration cfg :: rest => cfg :: writes rest
  | _ :: rest => writes rest

/-- The call `client.CoreV1().Secrets(namespace).Get(ctx, name, ...)` of the
typed Kubernetes client: an empty name is refused by the request builder
("resource name may not be empty") and the store is never asked; any other
name is looked up in the store. -/
def secretsGet (getSecret : String → String → Except String (List (String × String)))
    (namespace_ name : String) : Except String (List (String × String)) :=
  if name = "" then .error "resource name may not be empty" else getSecret namespace_ name

/-- The function `loadSecretConfig` (main.go 159-170). -/
def loadSecretConfig (getSecret : String → String → Except String (List (String × String)))
    (secretName namespace_ : String) : Except String stratoDNSProviderCredentials :=
  match secretsGet getSecret namespace_ secretName with
  | .error err =>
    .error ("error fetching secret " ++ namespace_ ++ "/" ++ secretName ++ ": " ++ err)
  | .ok data =>
    .ok { Identity := (data.lookup "identity").getD ""
          Password := (data.lookup "password").getD "" }

/-- The cleanup loop of `updateStrato` (main.go 282-287): start from an empty
slice and append every entry that differs from `record` in some field. -/
def removeRecord (records : List DNSRecord) (record : DNSRecord) : List DNSRecord :=
  records.foldl
    (fun acc entry =>
      if entry.Type_ ≠ record.Type_ ∨ entry.Prefix ≠ record.Prefix ∨ entry.Value ≠ record.Value then
        acc ++ [entry]
      else acc)
    []

/-- The function `updateStrato` (main.go 263-299), started on remote state `s`. -/
def updateStrato {σ : Type} (client : StratoClient σ) (record : DNSRecord) (add : Bool)
    (s : σ) : Run σ :=
  match client.GetDNSConfiguration s with
  | (.error err, s1) => ⟨.error err, s1, [Event.GetDNSConfiguration]⟩
  | (.ok oldDNSConfig, s1) =>
    if add then
      if contains oldDNSConfig.Records record then
        ⟨.ok (), s1, [Event.GetDNSConfiguration]⟩
      else
        let newDNSConfig := { oldDNSConfig with Records := oldDNSConfig.Records ++ [record] }
        match client.SetDNSConfiguration newDNSConfig s1 with
        | (.error err, s2) =>
          ⟨.error err, s2, [Event.GetDNSConfiguration, Event.SetDNSConfiguration newDNSConfig]⟩
        | (.ok _, s2) =>
          ⟨.ok (), s2, [Event.GetDNSConfiguration, Event.SetDNSConfiguration newDNSConfig]⟩
    else
      let newDNSConfig := { oldDNSConfig with Records := removeRecord oldDNSConfig.Records record }
      if newDNSConfig.Records.length = oldDNSConfig.Records.length then
        ⟨.ok (), s1, [Event.GetDNSConfiguration]⟩
      else
        match client.SetDNSConfiguration newDNSConfig s1 with
        | (.error err, s2) =>
          ⟨.error err, s2, [Event.GetDNSConfiguration, Event.SetDNSConfiguration newDNSConfig]⟩
        | (.ok _, s2) =>
          ⟨.ok (), s2, [Event.GetDNSConfiguration, Event.SetDNSConfiguration newDNSConfig]⟩

/-- The tail of `processRecord` once the client exists (main.go 236-260):
lock, update, unlock, fetch again and check the post-condition. -/
def reconcile {σ : Type} (client : StratoClient σ) (record : DNSRecord) (add : Bool)
    (s : σ) : Run σ :=
  let upd := updateStrato client record add s
  match upd.result with
  | .error err => ⟨.error err, upd.remote, Event.Lock :: upd.trace ++ [Event.Unlock]⟩
  | .ok _ =>
    let locked := Event.Lock :: upd.trace ++ [Event.Unlock]
    match client.GetDNSConfiguration upd.remote with
    | (.error err, s3) => ⟨.error err, s3, locked ++ [Event.GetDNSConfiguration]⟩
    | (.ok updatedDNSConfig, s3) =>
      if add then
        if !contains updatedDNSConfig.Records record then
          ⟨.error "failed to add new record", s3, locked ++ [Event.GetDNSConfiguration]⟩
        else ⟨.ok (), s3, locked ++ [Event.GetDNSConfiguration]⟩
      else
        if contains updatedDNSConfig.Records record then
          ⟨.error "failed to remove record", s3, locked ++ [Event.GetDNSConfiguration]⟩
        else ⟨.ok (), s3, locked ++ [Event.GetDNSConfiguration]⟩

/-- The function `processRecord` (main.go 207-261), started on remote state `s`. -/
def processRecord {σ : Type} (host : Host σ) (ch : ChallengeRequest) (add : Bool)
    (s : σ) : Run σ :=
  match loadConfig host.jsonUnmarshal ch.Config with
  | .error err => ⟨.error err, s, []⟩
  | .ok cfg =>
    match loadSecretConfig host.getSecret cfg.SecretRef ch.ResourceNamespace with
    | .error err => ⟨.error err, s, []⟩
    | .ok secretCfg =>
      match prevalidate cfg ch with
      | .error err => ⟨.error err, s, []⟩
      | .ok _ =>
        let record := desiredRecord host.lower cfg ch
        match host.NewStratoClient cfg.API secretCfg.Identity secretCfg.Password
            cfg.Order cfg.Domain with
        | .error err => ⟨.error err, s, []⟩
        | .ok client => reconcile client record add s

/-- The method `Present` (main.go 104-109). -/
def Present {σ : Type} (host : Host σ) (ch : ChallengeRequest) (s : σ) : Run σ :=
  processRecord host ch true s

/-- The method `CleanUp` (main.go 117-122). -/
def CleanUp {σ : Type} (host : Host σ) (ch : ChallengeRequest) (s : σ) : Run σ :=
  processRecord host ch false s

/-! ## Resolution of a request -/

/-- The stages of `processRecord` before the lock all succeed: the config
decodes to `cfg`, the secret yields `secretCfg`, validation passes and the
client constructor returns `client`. -/
def Resolves {σ : Type} (host : Host σ) (ch : ChallengeRequest)
    (cfg : stratoDNSProviderConfig) (secretCfg : stratoDNSProviderCredentials)
    (client : StratoClient σ) : Prop :=
  loadConfig host.jsonUnmarshal ch.Config = .ok cfg ∧
  loadSecretConfig host.getSecret cfg.SecretRef ch.ResourceNamespace = .ok secretCfg ∧
  prevalidate cfg ch = .ok () ∧
  host.NewStratoClient cfg.API secretCfg.Identity secretCfg.Password cfg.Order cfg.Domain
    = .ok client

/-! ## Sample inputs -/

/-- A config for the domain `example.com`. -/
def exampleConfig : stratoDNSProviderConfig :=
  { SecretRef := "strato-credentials", API := "https://www.strato.de/apps/CustomerService",
    Domain := "example.com", Order := "1234567" }

/-- The JSON text of `exampleConfig`, as an issuer carries it. -/
def exampleBlob : String :=
  "\x7b\"secretName\":\"strato-credentials\",\"api\":\"https://www.strato.de/apps/CustomerService\",\"domain\":\"example.com\",\"order\":\"1234567\"\x7d"

/-- A config that names the secret and leaves the domain out. -/
def noDomainConfig : stratoDNSProviderConfig :=
  { SecretRef := "strato-credentials", API := "https://www.strato.de/apps/CustomerService",
    Domain := "", Order := "1234567" }

/-- The JSON text of `noDomainConfig`. -/
def noDomainBlob : String :=
  "\x7b\"secretName\":\"strato-credentials\",\"api\":\"https://www.strato.de/apps/CustomerService\",\"order\":\"1234567\"\x7d"

/-- A challenge below the delegated zone `sub.example.com.`. -/
def subZoneRequest : ChallengeRequest :=
  { ResourceNamespace := "default", ResolvedZone := "sub.example.com.",
    ResolvedFQDN := "_acme-challenge.sub.example.com.", Key := "token-1",
    Config := some exampleBlob }

/-- The challenge of `subZoneRequest` with upper-case letters, ASCII and not,
in the resolved FQDN. -/
def mixedCaseRequest : ChallengeRequest :=
  { ResourceNamespace := "default", ResolvedZone := "sub.example.com.",
    ResolvedFQDN := "_ACME-Challenge.ÄÖ.Sub.example.com.", Key := "token-1",
    Config := some exampleBlob }

/-- The challenge of `subZoneRequest` with ASCII upper-case letters in the
resolved FQDN. -/
def upperCaseRequest : ChallengeRequest :=
  { ResourceNamespace := "default", ResolvedZone := "sub.example.com.",
    ResolvedFQDN := "_ACME-Challenge.Sub.example.com.", Key := "token-1",
    Config := some exampleBlob }

/-- A challenge for `example.com.` that carries the blob without a domain. -/
def noDomainRequest : ChallengeRequest :=
  { ResourceNamespace := "default", ResolvedZone := "example.com.",
    ResolvedFQDN := "_acme-challenge.example.com.", Key := "token-1",
    Config := some noDomainBlob }

/-- A challenge whose zone `badexample.com.` ends with the characters of
`example.com.` without being a sub-zone of it. -/
def lookalikeRequest : ChallengeRequest :=
  { ResourceNamespace := "default", ResolvedZone := "badexample.com.",
    ResolvedFQDN := "_acme-challenge.badexample.com.", Key := "token-1",
    Config := some exampleBlob }

/-- A well-formed challenge with no config blob at all. -/
def noConfigRequest : ChallengeRequest :=
  { ResourceNamespace := "default", ResolvedZone := "example.com.",
    ResolvedFQDN := "_acme-challenge.example.com.", Key := "token-1", Config := none }

/-! ## Provider behaviours -/

/-- A provider that stores what is written, seen through `view`: a fetch
succeeds, returns the stored configuration and leaves it in place; a write
succeeds and stores its argument. -/
def Faithful {σ : Type} (client : StratoClient σ) (view : σ → DNSConfig) : Prop :=
  (∀ s, (client.GetDNSConfiguration s).1 = .ok (view s) ∧
    view (client.GetDNSConfiguration s).2 = view s) ∧
  (∀ cfg s, (client.SetDNSConfiguration cfg s).1 = .ok () ∧
    view (client.SetDNSConfiguration cfg s).2 = cfg)

/-- A provider all of whose calls report success, whatever they do. -/
def AlwaysSucceeds {σ : Type} (client : StratoClient σ) : Prop :=
  (∀ s, ∃ cfg, (client.GetDNSConfiguration s).1 = .ok cfg) ∧
  (∀ cfg s, (client.SetDNSConfiguration cfg s).1 = .ok ())

/-- The plain faithful provider: the remote state is the configuration. -/
def memoryClient : StratoClient DNSConfig :=
  { GetDNSConfiguration := fun s => (.ok s, s)
    SetDNSConfiguration := fun cfg _ => (.ok (), cfg) }

/-- A provider that reports success on every write and drops it. -/
def forgetfulClient : StratoClient DNSConfig :=
  { GetDNSConfiguration := fun s => (.ok s, s)
    SetDNSConfiguration := fun _ s => (.ok (), s) }

/-- A provider whose fetch fails. -/
def offlineClient : StratoClient DNSConfig :=
  { GetDNSConfiguration := fun s => (.error "connection refused", s)
    SetDNSConfiguration := fun _ s => (.error "connection refused", s) }

/-- The lower-case mappings of the Unicode character database (15.0) for the
runes above `MaxASCII`, as ranges `(first, last, stride, lower of first)`: a
rune `first + k * stride` within a range maps to `lower of first + k * stride`. -/
def lowerCaseRanges : List (Nat × Nat × Nat × Nat) :=
  [(0xC0, 0xD6, 1, 0xE0), (0xD8, 0xDE, 1, 0xF8), (0x100, 0x12E, 2, 0x101),
    (0x130, 0x130, 1, 0x69), (0x132, 0x136, 2, 0x133), (0x139, 0x147, 2, 0x13A),
    (0x14A, 0x176, 2, 0x14B), (0x178, 0x178, 1, 0xFF), (0x179, 0x17D, 2, 0x17A),
    (0x181, 0x181, 1, 0x253), (0x182, 0x184, 2, 0x183), (0x186, 0x186, 1, 0x254),
    (0x187, 0x187, 1, 0x188), (0x189, 0x18A, 1, 0x256), (0x18B, 0x18B, 1, 0x18C),
    (0x18E, 0x18E, 1, 0x1DD), (0x18F, 0x18F, 1, 0x259), (0x190, 0x190, 1, 0x25B),
    (0x191, 0x191, 1, 0x192), (0x193, 0x193, 1, 0x260), (0x194, 0x194, 1, 0x263),
    (0x196, 0x196, 1, 0x269), (0x197, 0x197, 1, 0x268), (0x198, 0x198, 1, 0x199),
    (0x19C, 0x19C, 1, 0x26F), (0x19D, 0x19D, 1, 0x272), (0x19F, 0x19F, 1, 0x275),
    (0x1A0, 0x1A4, 2, 0x1A1), (0x1A6, 0x1A6, 1, 0x280), (0x1A7, 0x1A7, 1, 0x1A8),
    (0x1A9, 0x1A9, 1, 0x283), (0x1AC, 0x1AC, 1, 0x1AD), (0x1AE, 0x1AE, 1, 0x288),
    (0x1AF, 0x1AF, 1, 0x1B0), (0x1B1, 0x1B2, 1, 0x28A), (0x1B3, 0x1B5, 2, 0x1B4),
    (0x1B7, 0x1B7, 1, 0x292), (0x1B8, 0x1B8, 1, 0x1B9), (0x1BC, 0x1BC, 1, 0x1BD),
    (0x1C4, 0x1C4, 1, 0x1C6), (0x1C5, 0x1C5, 1, 0x1C6), (0x1C7, 0x1C7, 1, 0x1C9),
    (0x1C8, 0x1C8, 1, 0x1C9), (0x1CA, 0x1CA, 1, 0x1CC), (0x1CB, 0x1DB, 2, 0x1CC),
    (0x1DE, 0x1EE, 2, 0x1DF), (0x1F1, 0x1F1, 1, 0x1F3), (0x1F2, 0x1F4, 2, 0x1F3),
    (0x1F6, 0x1F6, 1, 0x195), (0x1F7, 0x1F7, 1, 0x1BF), (0x1F8, 0x21E, 2, 0x1F9),
    (0x220, 0x220, 1, 0x19E), (0x222, 0x232, 2, 0x223), (0x23A, 0x23A, 1, 0x2C65),
    (0x23B, 0x23B, 1, 0x23C), (0x23D, 0x23D, 1, 0x19A), (0x23E, 0x23E, 1, 0x2C66),
    (0x241, 0x241, 1, 0x242), (0x243, 0x243, 1, 0x180), (0x244, 0x244, 1, 0x289),
    (0x245, 0x245, 1, 0x28C), (0x246, 0x24E, 2, 0x247), (0x370, 0x372, 2, 0x371),
    (0x376, 0x376, 1, 0x377), (0x37F, 0x37F, 1, 0x3F3), (0x386, 0x386, 1, 0x3AC),
    (0x388, 0x38A, 1, 0x3AD), (0x38C, 0x38C, 1, 0x3CC), (0x38E, 0x38F, 1, 0x3CD),
    (0x391, 0x3A1, 1, 0x3B1), (0x3A3, 0x3AB, 1, 0x3C3), (0x3CF, 0x3CF, 1, 0x3D7),
    (0x3D8, 0x3EE, 2, 0x3D9), (0x3F4, 0x3F4, 1, 0x3B8), (0x3F7, 0x3F7, 1, 0x3F8),
    (0x3F9, 0x3F9, 1, 0x3F2), (0x3FA, 0x3FA, 1, 0x3FB), (0x3FD, 0x3FF, 1, 0x37B),
    (0x400, 0x40F, 1, 0x450), (0x410, 0x42F, 1, 0x430), (0x460, 0x480, 2, 0x461),
    (0x48A, 0x4BE, 2, 0x48B), (0x4C0, 0x4C0, 1, 0x4CF), (0x4C1, 0x4CD, 2, 0x4C2),
    (0x4D0, 0x52E, 2, 0x4D1), (0x531, 0x556, 1, 0x561), (0x10A0, 0x10C5, 1, 0x2D00),
    (0x10C7, 0x10C7, 1, 0x2D27), (0x10CD, 0x10CD, 1, 0x2D2D), (0x13A0, 0x13EF, 1, 0xAB70),
    (0x13F0, 0x13F5, 1, 0x13F8), (0x1C90, 0x1CBA, 1, 0x10D0), (0x1CBD, 0x1CBF, 1, 0x10FD),
    (0x1E00, 0x1E94, 2, 0x1E01), (0x1E9E, 0x1E9E, 1, 0xDF), (0x1EA0, 0x1EFE, 2, 0x1EA1),
    (0x1F08, 0x1F0F, 1, 0x1F00), (0x1F18, 0x1F1D, 1, 0x1F10), (0x1F28, 0x1F2F, 1, 0x1F20),
    (0x1F38, 0x1F3F, 1, 0x1F30), (0x1F48, 0x1F4D, 1, 0x1F40), (0x1F59, 0x1F5F, 2, 0x1F51),
    (0x1F68, 0x1F6F, 1, 0x1F60), (0x1F88, 0x1F8F, 1, 0x1F80), (0x1F98, 0x1F9F, 1, 0x1F90),
    (0x1FA8, 0x1FAF, 1, 0x1FA0), (0x1FB8, 0x1FB9, 1, 0x1FB0), (0x1FBA, 0x1FBB, 1, 0x1F70),
    (0x1FBC, 0x1FBC, 1, 0x1FB3), (0x1FC8, 0x1FCB, 1, 0x1F72), (0x1FCC, 0x1FCC, 1, 0x1FC3),
    (0x1FD8, 0x1FD9, 1, 0x1FD0), (0x1FDA, 0x1FDB, 1, 0x1F76), (0x1FE8, 0x1FE9, 1, 0x1FE0),
    (0x1FEA, 0x1FEB, 1, 0x1F7A), (0x1FEC, 0x1FEC, 1, 0x1FE5), (0x1FF8, 0x1FF9, 1, 0x1F78),
    (0x1FFA, 0x1FFB, 1, 0x1F7C), (0x1FFC, 0x1FFC, 1, 0x1FF3), (0x2126, 0x2126, 1, 0x3C9),
    (0x212A, 0x212A, 1, 0x6B), (0x212B, 0x212B, 1, 0xE5), (0x2132, 0x2132, 1, 0x214E),
    (0x2160, 0x216F, 1, 0x2170), (0x2183, 0x2183, 1, 0x2184), (0x24B6, 0x24CF, 1, 0x24D0),
    (0x2C00, 0x2C2F, 1, 0x2C30), (0x2C60, 0x2C60, 1, 0x2C61), (0x2C62, 0x2C62, 1, 0x26B),
    (0x2C63, 0x2C63, 1, 0x1D7D), (0x2C64, 0x2C64, 1, 0x27D), (0x2C67, 0x2C6B, 2, 0x2C68),
    (0x2C6D, 0x2C6D, 1, 0x251), (0x2C6E, 0x2C6E, 1, 0x271), (0x2C6F, 0x2C6F, 1, 0x250),
    (0x2C70, 0x2C70, 1, 0x252), (0x2C72, 0x2C72, 1, 0x2C73), (0x2C75, 0x2C75, 1, 0x2C76),
    (0x2C7E, 0x2C7F, 1, 0x23F), (0x2C80, 0x2CE2, 2, 0x2C81), (0x2CEB, 0x2CED, 2, 0x2CEC),
    (0x2CF2, 0x2CF2, 1, 0x2CF3), (0xA640, 0xA66C, 2, 0xA641), (0xA680, 0xA69A, 2, 0xA681),
    (0xA722, 0xA72E, 2, 0xA723), (0xA732, 0xA76E, 2, 0xA733), (0xA779, 0xA77B, 2, 0xA77A),
    (0xA77D, 0xA77D, 1, 0x1D79), (0xA77E, 0xA786, 2, 0xA77F), (0xA78B, 0xA78B, 1, 0xA78C),
    (0xA78D, 0xA78D, 1, 0x265), (0xA790, 0xA792, 2, 0xA791), (0xA796, 0xA7A8, 2, 0xA797),
    (0xA7AA, 0xA7AA, 1, 0x266), (0xA7AB, 0xA7AB, 1, 0x25C), (0xA7AC, 0xA7AC, 1, 0x261),
    (0xA7AD, 0xA7AD, 1, 0x26C), (0xA7AE, 0xA7AE, 1, 0x26A), (0xA7B0, 0xA7B0, 1, 0x29E),
    (0xA7B1, 0xA7B1, 1, 0x287), (0xA7B2, 0xA7B2, 1, 0x29D), (0xA7B3, 0xA7B3, 1, 0xAB53),
    (0xA7B4, 0xA7C2, 2, 0xA7B5), (0xA7C4, 0xA7C4, 1, 0xA794), (0xA7C5, 0xA7C5, 1, 0x282),
    (0xA7C6, 0xA7C6, 1, 0x1D8E), (0xA7C7, 0xA7C9, 2, 0xA7C8), (0xA7D0, 0xA7D0, 1, 0xA7D1),
    (0xA7D6, 0xA7D8, 2, 0xA7D7), (0xA7F5, 0xA7F5, 1, 0xA7F6), (0xFF21, 0xFF3A, 1, 0xFF41),
    (0x10400, 0x10427, 1, 0x10428), (0x104B0, 0x104D3, 1, 0x104D8),
    (0x10570, 0x1057A, 1, 0x10597), (0x1057C, 0x1058A, 1, 0x105A3),
    (0x1058C, 0x10592, 1, 0x105B3), (0x10594, 0x10595, 1, 0x105BB),
    (0x10C80, 0x10CB2, 1, 0x10CC0), (0x118A0, 0x118BF, 1, 0x118C0),
    (0x16E40, 0x16E5F, 1, 0x16E60), (0x1E900, 0x1E921, 1, 0x1E922)]

/-- The case table `unicode.To(unicode.LowerCase, r)`: a rune in one of the
`lowerCaseRanges` is moved to its lower-case partner, any other is returned. -/
def unicodeLowerCase (r : Char) : Char :=
  match lowerCaseRanges.find?
      (fun range => decide (range.1 ≤ r.toNat ∧ r.toNat ≤ range.2.1 ∧
        (r.toNat - range.1) % range.2.2.1 = 0)) with
  | some range => Char.ofNat (r.toNat + range.2.2.2 - range.1)
  | none => r

/-- The decoder of the sample host, `json.Unmarshal` on the blobs used here:
the text of `exampleConfig`, the text of `noDomainConfig` and the empty
object; any other blob is answered with an error. -/
def sampleUnmarshal (raw : String) : Except String stratoDNSProviderConfig :=
  if raw = exampleBlob then .ok exampleConfig
  else if raw = noDomainBlob then .ok noDomainConfig
  else if raw = "\x7b\x7d" then .ok zeroConfig
  else .error "invalid character looking for beginning of value"

/-- The secret store of the sample host: the namespace `default` holds the
secret `strato-credentials`, and nothing else exists. -/
def sampleSecrets (namespace_ name : String) : Except String (List (String × String)) :=
  if namespace_ = "default" ∧ name = "strato-credentials" then
    .ok [("identity", "customer"), ("password", "secret")]
  else .error ("secrets \"" ++ name ++ "\" not found")

/-- A host with the sample decoder, the sample secret store and the Unicode
case table, whose client constructor hands out `client`. -/
def hostWith (client : StratoClient DNSConfig) : Host DNSConfig :=
  { jsonUnmarshal := sampleUnmarshal
    getSecret := sampleSecrets
    NewStratoClient := fun _ _ _ _ _ => .ok client
    lower := unicodeLowerCase }

/-- The credentials that `hostWith` resolves. -/
def sampleCredentials : stratoDNSProviderCredentials :=
  { Identity := "customer", Password := "secret" }

/-- The record derived for `subZoneRequest` under `exampleConfig`. -/
def sampleRecord : DNSRecord :=
  { Type_ := "TXT", Prefix := "_acme-challenge.sub", Value := "token-1" }

/-- An unrelated record of the zone. -/
def mailRecord : DNSRecord :=
  { Type_ := "MX", Prefix := "", Value := "10 mail.example.com." }

/-- A TXT record with the prefix of `sampleRecord` and another value. -/
def siblingRecord : DNSRecord :=
  { Type_ := "TXT", Prefix := "_acme-challenge.sub", Value := "token-2" }

/-- A zone holding the given records. -/
def zoneWith (records : List DNSRecord) : DNSConfig :=
  { DMARCType := "none", SPFType := "strato", Records := records }

/-! ## Lock discipline -/

/-- Where a run stands with respect to the solver's mutex: not yet locked,
holding the lock (and whether the zone was fetched under it), or done with it. -/
inductive LockPhase where
  | idle
  | held (fetched : Bool)
  | released
deriving DecidableEq, Repr

/-- One step of the monitor.  A write is allowed only while the lock is held
and right after a fetch under the same lock (each write uses up its fetch);
the lock is taken only once; fetches are allowed anywhere. -/
def lockStep : LockPhase → Event → Option LockPhase
  | .idle, .Lock => some (.held false)
  | .idle, .GetDNSConfiguration => some .idle
  | .idle, _ => none
  | .held _, .GetDNSConfiguration => some (.held true)
  | .held true, .SetDNSConfiguration _ => some (.held false)
  | .held _, .Unlock => some .released
  | .held _, _ => none
  | .released, .GetDNSConfiguration => some .released
  | .released, _ => none

/-- Run the monitor over a trace. -/
def lockRun : LockPhase → List Event → Option LockPhase
  | phase, [] => some phase
  | phase, e :: rest =>
    match lockStep phase e with
    | none => none
    | some next => lockRun next rest

/-- The trace obeys the lock discipline: the monitor accepts every event and
the lock is not held at the end. -/
def lockDiscipline (trace : List Event) : Bool :=
  match lockRun .idle trace with
  | some .idle => true
  | some .released => true
  | _ => false

/-! ## Facts about the string helpers -/

theorem hasSuffix_iff (s suffix : String) :
    hasSuffix s suffix = true ↔ ∃ p : String, s = p ++ suffix := by
  obtain ⟨l⟩ := s
  obtain ⟨t⟩ := suffix
  simp only [hasSuffix, String.length, Bool.and_eq_true, decide_eq_true_eq]
  constructor
  · rintro ⟨_, hdrop⟩
    refine ⟨⟨l.take (l.length - t.length)⟩, ?_⟩
    apply String.ext
    simp only [String.data_append]
    conv_lhs => rw [← List.take_append_drop (l.length - t.length) l]
    rw [hdrop]
  · rintro ⟨⟨p⟩, hp⟩
    have hl : l = p ++ t := by
      have := congrArg String.data hp
      simpa using this
    subst hl
    constructor
    · simp
    · simp

theorem trimSuffix_append (p suffix : String) : trimSuffix (p ++ suffix) suffix = p := by
  have h : hasSuffix (p ++ suffix) suffix = true := (hasSuffix_iff _ _).2 ⟨p, rfl⟩
  obtain ⟨l⟩ := p
  obtain ⟨t⟩ := suffix
  simp only [trimSuffix, h, if_true]
  apply String.ext
  show (l ++ t).take ((l ++ t).length - t.length) = l
  simp

theorem trimSuffix_of_not_hasSuffix (s suffix : String) (h : hasSuffix s suffix = false) :
    trimSuffix s suffix = s := by
  unfold trimSuffix
  rw [h]
  rfl

theorem toLower_length (lower : Char → Char) (s : String) :
    (toLower lower s).length = s.length := by
  obtain ⟨l⟩ := s
  show (l.map (unicodeToLower lower)).length = l.length
  exact List.length_map l (unicodeToLower lower)

theorem string_ne_empty_of_append_dot (p q : String) : p ++ "." ++ q ≠ "" := by
  intro h
  have := congrArg String.length h
  simp only [String.length_append] at this
  have h1 : (".").length = 1 := rfl
  have h0 : ("").length = 0 := rfl
  omega

/-! ## Facts about `contains` and the cleanup loop -/

theorem contains_iff_mem (records : List DNSRecord) (record : DNSRecord) :
    contains records record = true ↔ record ∈ records := by
  induction records with
  | nil => simp [contains]
  | cons entry rest ih =>
    obtain ⟨t, p, v⟩ := entry
    obtain ⟨t2, p2, v2⟩ := record
    by_cases h : t = t2 ∧ p = p2 ∧ v = v2
    · obtain ⟨rfl, rfl, rfl⟩ := h
      simp [contains]
    · have hne : ¬ (({ Type_ := t2, Prefix := p2, Value := v2 } : DNSRecord)
          = { Type_ := t, Prefix := p, Value := v }) := by
        intro heq
        injection heq with h1 h2 h3
        exact h ⟨h1.symm, h2.symm, h3.symm⟩
      simp only [contains, h, if_false, ih, List.mem_cons, hne, false_or]

theorem removeRecord_eq_filter (records : List DNSRecord) (record : DNSRecord) :
    removeRecord records record = records.filter (fun entry => decide (entry ≠ record)) := by
  have key : ∀ (rs acc : List DNSRecord),
      rs.foldl
        (fun acc entry =>
          if entry.Type_ ≠ record.Type_ ∨ entry.Prefix ≠ record.Prefix ∨ entry.Value ≠ record.Value
          then acc ++ [entry] else acc) acc
        = acc ++ rs.filter (fun entry => decide (entry ≠ record)) := by
    intro rs
    induction rs with
    | nil => intro acc; simp
    | cons entry rest ih =>
      intro acc
      obtain ⟨t, p, v⟩ := entry
      obtain ⟨t2, p2, v2⟩ := record
      by_cases h : t = t2 ∧ p = p2 ∧ v = v2
      · obtain ⟨rfl, rfl, rfl⟩ := h
        simp [List.foldl_cons, ih]
      · have hne : ({ Type_ := t, Prefix := p, Value := v } : DNSRecord)
            ≠ { Type_ := t2, Prefix := p2, Value := v2 } := by
          intro heq
          injection heq with h1 h2 h3
          exact h ⟨h1, h2, h3⟩
        have hor : t ≠ t2 ∨ p ≠ p2 ∨ v ≠ v2 := by
          by_contra hcon
          push_neg at hcon
          exact h hcon
        simp only [List.foldl_cons, if_pos hor, ih, List.filter_cons, hne, ne_eq,
          not_false_eq_true, decide_True, if_true, List.append_assoc, List.singleton_append]
  simpa [removeRecord] using key records []

theorem removeRecord_length_eq_iff (records : List DNSRecord) (record : DNSRecord) :
    (removeRecord records record).length = records.length ↔ contains records record = false := by
  rw [removeRecord_eq_filter]
  constructor
  · intro hlen
    have hfil := (List.filter_sublist (p := fun entry => decide (entry ≠ record)) records).eq_of_length hlen
    have hall := List.filter_eq_self.1 hfil
    cases hc : contains records record with
    | false => rfl
    | true =>
      have hmem := (contains_iff_mem _ _).1 hc
      have := hall record hmem
      simp at this
  · intro hc
    have hnot : record ∉ records := by
      intro hmem
      rw [(contains_iff_mem _ _).2 hmem] at hc
      exact Bool.noConfusion hc
    have : records.filter (fun entry => decide (entry ≠ record)) = records := by
      apply List.filter_eq_self.2
      intro a ha
      simp only [ne_eq, decide_eq_true_eq]
      intro heq
      exact hnot (heq ▸ ha)
    rw [this]

/-! ## Resolved requests -/

theorem processRecord_of_resolves {σ : Type} (host : Host σ) (ch : ChallengeRequest)
    (cfg : stratoDNSProviderConfig) (secretCfg : stratoDNSProviderCredentials)
    (client : StratoClient σ) (h : Resolves host ch cfg secretCfg client) (add : Bool) (s : σ) :
    processRecord host ch add s = reconcile client (desiredRecord host.lower cfg ch) add s := by
  obtain ⟨h1, h2, h3, h4⟩ := h
  simp only [processRecord, h1, h2, h3, h4]

/-! ## Validation -/

theorem prevalidate_rules (cfg : stratoDNSProviderConfig) (ch : ChallengeRequest) :
    prevalidate cfg ch = .ok () ↔
      (ch.ResolvedFQDN ≠ "" ∧ ch.ResolvedZone ≠ "") ∧
      (ch.ResolvedZone = cfg.Domain ++ "." ∨
        ∃ p : String, ch.ResolvedZone = p ++ (cfg.Domain ++ ".")) ∧
      (∃ p : String, ch.ResolvedFQDN = p ++ ("." ++ ch.ResolvedZone)) := by
  rw [← hasSuffix_iff, ← hasSuffix_iff]
  unfold prevalidate
  by_cases h1 : ch.ResolvedFQDN = "" ∨ ch.ResolvedZone = ""
  · rw [if_pos h1]
    constructor
    · intro h; cases h
    · rintro ⟨⟨hf, hz⟩, _⟩
      rcases h1 with h1 | h1
      · exact absurd h1 hf
      · exact absurd h1 hz
  · rw [if_neg h1]
    push_neg at h1
    by_cases h2 : ch.ResolvedZone ≠ cfg.Domain ++ "." ∧
        (!hasSuffix ch.ResolvedZone (cfg.Domain ++ ".")) = true
    · rw [if_pos h2]
      constructor
      · intro h; cases h
      · rintro ⟨_, hz, _⟩
        rcases hz with hz | hz
        · exact absurd hz h2.1
        · have := h2.2
          rw [hz] at this
          cases this
    · rw [if_neg h2]
      have hz : ch.ResolvedZone = cfg.Domain ++ "." ∨
          hasSuffix ch.ResolvedZone (cfg.Domain ++ ".") = true := by
        by_contra hcon
        push_neg at hcon
        apply h2
        refine ⟨hcon.1, ?_⟩
        cases hs : hasSuffix ch.ResolvedZone (cfg.Domain ++ ".") with
        | false => rfl
        | true => exact absurd hs hcon.2
      cases h3 : hasSuffix ch.ResolvedFQDN ("." ++ ch.ResolvedZone) with
      | false =>
        simp only [Bool.not_false, if_true]
        constructor
        · intro h; cases h
        · rintro ⟨_, _, hf⟩
          cases hf
      | true =>
        simp only [Bool.not_true, Bool.false_eq_true, if_false, true_iff]
        exact ⟨h1, hz, trivial⟩

/-- C6: `prevalidate` returns no error exactly when (1) the resolved FQDN and
zone are both non-empty, (2) the zone equals `Domain + "."` or has it as a
suffix, and (3) the FQDN ends with `"." + zone`.  The zone `sub.example.com.`
passes for the domain `example.com`; the zone `other.com.` fails for it,
whatever the FQDN. -/
theorem prevalidate_ok_iff (cfg : stratoDNSProviderConfig) (ch : ChallengeRequest) :
    (prevalidate cfg ch = .ok () ↔
      (ch.ResolvedFQDN ≠ "" ∧ ch.ResolvedZone ≠ "") ∧
      (ch.ResolvedZone = cfg.Domain ++ "." ∨
        ∃ p : String, ch.ResolvedZone = p ++ (cfg.Domain ++ ".")) ∧
      (∃ p : String, ch.ResolvedFQDN = p ++ ("." ++ ch.ResolvedZone))) ∧
    prevalidate exampleConfig subZoneRequest = .ok () ∧
    (∀ fqdn : String,
      prevalidate exampleConfig
        { ResourceNamespace := "default", ResolvedZone := "other.com.", ResolvedFQDN := fqdn,
          Key := "token-1", Config := none } ≠ .ok ()) := by
  refine ⟨prevalidate_rules cfg ch, by decide, ?_⟩
  · intro fqdn
    have hne : ("other.com." : String) ≠ exampleConfig.Domain ++ "." := by decide
    have hsuf : (!hasSuffix "other.com." (exampleConfig.Domain ++ ".")) = true := by decide
    unfold prevalidate
    by_cases h1 : fqdn = "" ∨ ("other.com." : String) = ""
    · rw [if_pos h1]
      intro h; cases h
    · rw [if_neg h1, if_pos ⟨hne, hsuf⟩]
      intro h; cases h

/-- C7 (as stated, refuted): it is not the case that the nil blob decodes to
the zero-value config and every descriptor is rejected by `prevalidate` when
the config's `Domain` is empty: the zero-value config passes validation for
the zone `example.com.` and the FQDN `_acme-challenge.example.com.`. -/
theorem empty_domain_not_rejected :
    ¬ ((∀ f : String → Except String stratoDNSProviderConfig, loadConfig f none = .ok zeroConfig) ∧
       (∀ (cfg : stratoDNSProviderConfig) (ch : ChallengeRequest),
          cfg.Domain = "" → prevalidate cfg ch ≠ .ok ())) := by
  rintro ⟨_, h⟩
  exact h zeroConfig noConfigRequest rfl (by decide)

theorem processRecord_empty_secret_name {σ : Type} (host : Host σ) (ch : ChallengeRequest)
    (add : Bool) (s : σ) (cfg : stratoDNSProviderConfig)
    (hcfg : loadConfig host.jsonUnmarshal ch.Config = .ok cfg) (hname : cfg.SecretRef = "") :
    processRecord host ch add s =
      ⟨.error ("error fetching secret " ++ ch.ResourceNamespace ++ "/" ++ "" ++ ": "
          ++ "resource name may not be empty"), s, []⟩ := by
  have hsec : loadSecretConfig host.getSecret cfg.SecretRef ch.ResourceNamespace
      = .error ("error fetching secret " ++ ch.ResourceNamespace ++ "/" ++ "" ++ ": "
          ++ "resource name may not be empty") := by
    rw [hname]
    simp only [loadSecretConfig, secretsGet, if_true]
  simp only [processRecord, hcfg, hsec]

/-- C7 (amended): the nil blob decodes to the zero-value config without error.
An empty `Domain` alone does not fail validation: with it, `prevalidate`
returns an error exactly for the descriptors whose zone does not end with
`"."` or whose FQDN does not end with `"." + zone`.  Still no mutation is
attempted for a zero-value config: its empty secret name makes the secret
lookup fail before validation, and `processRecord` returns that error with no
provider call, no mutex operation and the zone as it was. -/
theorem zero_config_validation {σ : Type} (host : Host σ) (cfg : stratoDNSProviderConfig)
    (ch : ChallengeRequest) (add : Bool) (s : σ) :
    loadConfig host.jsonUnmarshal none = .ok zeroConfig ∧
    (cfg.Domain = "" →
      (prevalidate cfg ch = .ok () ↔
        (∃ p : String, ch.ResolvedZone = p ++ ".") ∧
        (∃ p : String, ch.ResolvedFQDN = p ++ ("." ++ ch.ResolvedZone)))) ∧
    (loadConfig host.jsonUnmarshal ch.Config = .ok zeroConfig →
      (processRecord host ch add s).result
        = .error ("error fetching secret " ++ ch.ResourceNamespace ++ "/" ++ "" ++ ": "
            ++ "resource name may not be empty") ∧
      (processRecord host ch add s).trace = [] ∧
      (processRecord host ch add s).remote = s) ∧
    (ch.Config = none →
      (processRecord host ch add s).result ≠ .ok () ∧
      (processRecord host ch add s).trace = [] ∧
      (processRecord host ch add s).remote = s) := by
  have hempty : ("" : String) ++ "." = "." := by decide
  refine ⟨rfl, ?_, ?_, ?_⟩
  · intro hD
    rw [prevalidate_rules, hD, hempty]
    constructor
    · rintro ⟨_, hz, hf⟩
      refine ⟨?_, hf⟩
      rcases hz with hz | hz
      · exact ⟨"", by rw [hz]; exact hempty.symm⟩
      · exact hz
    · rintro ⟨⟨p, hp⟩, ⟨q, hq⟩⟩
      refine ⟨⟨?_, ?_⟩, Or.inr ⟨p, hp⟩, ⟨q, hq⟩⟩
      · rw [hq, ← String.append_assoc]
        exact string_ne_empty_of_append_dot q ch.ResolvedZone
      · rw [hp]
        have := string_ne_empty_of_append_dot p ""
        simpa using this
  · intro hcfg
    rw [processRecord_empty_secret_name host ch add s zeroConfig hcfg rfl]
    exact ⟨rfl, rfl, rfl⟩
  · intro hnil
    have hcfg : loadConfig host.jsonUnmarshal ch.Config = .ok zeroConfig := by
      rw [hnil]
      rfl
    rw [processRecord_empty_secret_name host ch add s zeroConfig hcfg rfl]
    exact ⟨(by intro h; cases h), rfl, rfl⟩

/-- C7 (amended), instantiated: the config without a domain passes validation
for the request that carries it, and the request without a blob stops at the
secret lookup, with nothing attempted. -/
theorem zero_config_validation_witness :
    noDomainConfig.Domain = "" ∧
    prevalidate noDomainConfig noDomainRequest = .ok () ∧
    noConfigRequest.Config = none ∧
    (processRecord (hostWith memoryClient) noConfigRequest true (zoneWith [])).result
      ≠ .ok () ∧
    (processRecord (hostWith memoryClient) noConfigRequest true (zoneWith [])).trace = [] :=
  ⟨rfl,
   ((zero_config_validation (hostWith memoryClient) noDomainConfig noDomainRequest true
      (zoneWith [])).2.1 rfl).2 ⟨⟨"example.com", by decide⟩, ⟨"_acme-challenge", by decide⟩⟩,
   rfl,
   ((zero_config_validation (hostWith memoryClient) noDomainConfig noConfigRequest true
      (zoneWith [])).2.2.2 rfl).1,
   ((zero_config_validation (hostWith memoryClient) noDomainConfig noConfigRequest true
      (zoneWith [])).2.2.2 rfl).2.1⟩

/-! ## Record derivation -/

theorem unicodeToLower_ascii (lower : Char → Char) (c : Char) (h : c.toNat ≤ 127) :
    unicodeToLower lower c
      = (if 65 ≤ c.toNat ∧ c.toNat ≤ 90 then Char.ofNat (c.toNat + 32) else c) := by
  have hA : 'A'.toNat = 65 := by decide
  have hZ : 'Z'.toNat = 90 := by decide
  have ha : 'a'.toNat = 97 := by decide
  have h7 : c.toNat ≤ 0x7F := h
  simp only [unicodeToLower, h7, if_true, hA, hZ, ha]

theorem unicodeToLower_eq_toLower (lower : Char → Char) (c : Char) (h : c.toNat ≤ 127) :
    unicodeToLower lower c = Char.toLower c := by
  rw [unicodeToLower_ascii lower c h]
  simp only [Char.toLower, ge_iff_le]

theorem desiredRecord_prefix_data (lower : Char → Char) (cfg : stratoDNSProviderConfig)
    (ch : ChallengeRequest) :
    (desiredRecord lower cfg ch).Prefix.data
      = (trimSuffix ch.ResolvedFQDN ("." ++ cfg.Domain ++ ".")).data.map (unicodeToLower lower) :=
  rfl

theorem fqdn_split (fqdn P D : String) (h : fqdn = P ++ "." ++ D ++ ".") :
    fqdn = P ++ ("." ++ D ++ ".") := by
  rw [h]
  simp only [String.append_assoc]

/-- C8: for every descriptor and config the record built by `processRecord`
has type `"TXT"`, the challenge key as its value, and as its prefix the
resolved FQDN with the trailing `"." + Domain + "."` stripped and every rune
put through `unicode.ToLower` (`A`..`Z` become `a`..`z`, other ASCII runes
stay, other runes go through the Unicode case table): an FQDN
`P + "." + Domain + "."` yields the lower-cased `P`, an FQDN without that
suffix yields the lower-cased FQDN, and a resolved request is reconciled with
exactly this record.  For the domain `example.com` the FQDN
`_acme-challenge.sub.example.com.` gives the prefix `_acme-challenge.sub`, and
`_ACME-Challenge.ÄÖ.Sub.example.com.` gives `_acme-challenge.äö.sub`. -/
theorem record_derivation {σ : Type} (host : Host σ) (cfg : stratoDNSProviderConfig)
    (ch : ChallengeRequest) :
    (desiredRecord host.lower cfg ch).Type_ = "TXT" ∧
    (desiredRecord host.lower cfg ch).Value = ch.Key ∧
    (∀ P : String, ch.ResolvedFQDN = P ++ "." ++ cfg.Domain ++ "." →
      (desiredRecord host.lower cfg ch).Prefix.data
        = P.data.map (unicodeToLower host.lower)) ∧
    (∀ P : String, ch.ResolvedFQDN = P ++ "." ++ cfg.Domain ++ "." →
      (∀ c ∈ P.data, c.toNat ≤ 127) →
      (desiredRecord host.lower cfg ch).Prefix = ⟨P.data.map Char.toLower⟩) ∧
    ((¬ ∃ P : String, ch.ResolvedFQDN = P ++ "." ++ cfg.Domain ++ ".") →
      (desiredRecord host.lower cfg ch).Prefix.data
        = ch.ResolvedFQDN.data.map (unicodeToLower host.lower)) ∧
    (∀ c : Char, c.toNat ≤ 127 →
      unicodeToLower host.lower c
        = (if 65 ≤ c.toNat ∧ c.toNat ≤ 90 then Char.ofNat (c.toNat + 32) else c)) ∧
    (∀ c : Char, 127 < c.toNat → unicodeToLower host.lower c = host.lower c) ∧
    (∀ (secretCfg : stratoDNSProviderCredentials) (client : StratoClient σ) (add : Bool) (s : σ),
      Resolves host ch cfg secretCfg client →
      processRecord host ch add s = reconcile client (desiredRecord host.lower cfg ch) add s) ∧
    (desiredRecord (hostWith memoryClient).lower exampleConfig subZoneRequest).Prefix
      = "_acme-challenge.sub" ∧
    (desiredRecord (hostWith memoryClient).lower exampleConfig mixedCaseRequest).Prefix
      = "_acme-challenge.äö.sub" := by
  have hstrip : ∀ P : String, ch.ResolvedFQDN = P ++ "." ++ cfg.Domain ++ "." →
      (desiredRecord host.lower cfg ch).Prefix.data
        = P.data.map (unicodeToLower host.lower) := by
    intro P hfqdn
    rw [desiredRecord_prefix_data, fqdn_split _ _ _ hfqdn, trimSuffix_append]
  refine ⟨rfl, rfl, hstrip, ?_, ?_, ?_, ?_, ?_, by decide, by decide⟩
  · intro P hfqdn hascii
    apply String.ext
    rw [hstrip P hfqdn]
    apply List.map_congr_left
    intro c hc
    exact unicodeToLower_eq_toLower host.lower c (hascii c hc)
  · intro hno
    have hsuf : hasSuffix ch.ResolvedFQDN ("." ++ cfg.Domain ++ ".") = false := by
      cases hs : hasSuffix ch.ResolvedFQDN ("." ++ cfg.Domain ++ ".") with
      | false => rfl
      | true =>
        obtain ⟨P, hP⟩ := (hasSuffix_iff _ _).1 hs
        exact absurd ⟨P, by rw [hP]; simp only [String.append_assoc]⟩ hno
    rw [desiredRecord_prefix_data, trimSuffix_of_not_hasSuffix _ _ hsuf]
  · intro c hc
    exact unicodeToLower_ascii host.lower c hc
  · intro c hc
    have h7 : ¬ c.toNat ≤ 0x7F := by
      have : (0x7F : Nat) = 127 := rfl
      omega
    simp only [unicodeToLower, h7, if_false]
  · intro secretCfg client add s hres
    exact processRecord_of_resolves host ch cfg secretCfg client hres add s

/-- C8, instantiated at the domain `example.com` and the FQDN
`_ACME-Challenge.Sub.example.com.`, whose prefix is `_acme-challenge.sub`. -/
theorem record_derivation_witness :
    upperCaseRequest.ResolvedFQDN = "_ACME-Challenge.Sub" ++ "." ++ exampleConfig.Domain ++ "." ∧
    (∀ c ∈ ("_ACME-Challenge.Sub" : String).data, c.toNat ≤ 127) ∧
    (desiredRecord (hostWith memoryClient).lower exampleConfig upperCaseRequest).Prefix
      = "_acme-challenge.sub" :=
  ⟨by decide, by decide,
   ((record_derivation (hostWith memoryClient) exampleConfig upperCaseRequest).2.2.2.1
      "_ACME-Challenge.Sub" (by decide) (by decide)).trans (by decide)⟩

/-- C10 (the code at the failing input): for the non-empty domain
`example.com`, `prevalidate` accepts the zone `badexample.com.` with the FQDN
`_acme-challenge.badexample.com.`, although that FQDN does not end with
`".example.com."`; nothing is stripped, the derived prefix is the whole
lower-cased FQDN (as long as the FQDN, trailing dot and domain included), and
`Present` stores a record with that prefix. -/
theorem lookalike_zone_not_stripped :
    exampleConfig.Domain ≠ "" ∧
    prevalidate exampleConfig lookalikeRequest = .ok () ∧
    hasSuffix lookalikeRequest.ResolvedFQDN ("." ++ exampleConfig.Domain ++ ".") = false ∧
    (∀ lower : Char → Char,
      (desiredRecord lower exampleConfig lookalikeRequest).Prefix
        = toLower lower lookalikeRequest.ResolvedFQDN ∧
      (desiredRecord lower exampleConfig lookalikeRequest).Prefix.length
        = lookalikeRequest.ResolvedFQDN.length) ∧
    (desiredRecord Char.toLower exampleConfig lookalikeRequest).Prefix
      = "_acme-challenge.badexample.com." ∧
    (Present (hostWith memoryClient) lookalikeRequest (zoneWith [])).result = .ok () ∧
    (Present (hostWith memoryClient) lookalikeRequest (zoneWith [])).remote.Records
      = [{ Type_ := "TXT", Prefix := "_acme-challenge.badexample.com.", Value := "token-1" }] := by
  have hno : hasSuffix lookalikeRequest.ResolvedFQDN ("." ++ exampleConfig.Domain ++ ".") = false := by
    decide
  refine ⟨by decide, by decide, hno, ?_, by decide, by decide, by decide⟩
  intro lower
  have hpre : (desiredRecord lower exampleConfig lookalikeRequest).Prefix
      = toLower lower lookalikeRequest.ResolvedFQDN := by
    show toLower lower (trimSuffix lookalikeRequest.ResolvedFQDN
      ("." ++ exampleConfig.Domain ++ ".")) = _
    rw [trimSuffix_of_not_hasSuffix _ _ hno]
  exact ⟨hpre, by rw [hpre, toLower_length]⟩

/-! ## The read-modify-write step -/

theorem run_eta {σ : Type} (r : Except String Unit × σ) (t : List Event) :
    (match r with
      | (.error err, s2) => (⟨.error err, s2, t⟩ : Run σ)
      | (.ok _, s2) => ⟨.ok (), s2, t⟩) = ⟨r.1, r.2, t⟩ := by
  obtain ⟨res, s2⟩ := r
  cases res <;> rfl

theorem updateStrato_add_present {σ : Type} (client : StratoClient σ) (record : DNSRecord)
    (s s1 : σ) (old : DNSConfig) (hget : client.GetDNSConfiguration s = (.ok old, s1))
    (hc : contains old.Records record = true) :
    updateStrato client record true s = ⟨.ok (), s1, [Event.GetDNSConfiguration]⟩ := by
  simp only [updateStrato, hget, hc, if_true]

theorem updateStrato_add_absent {σ : Type} (client : StratoClient σ) (record : DNSRecord)
    (s s1 : σ) (old : DNSConfig) (hget : client.GetDNSConfiguration s = (.ok old, s1))
    (hc : contains old.Records record = false) :
    updateStrato client record true s =
      ⟨(client.SetDNSConfiguration { old with Records := old.Records ++ [record] } s1).1,
       (client.SetDNSConfiguration { old with Records := old.Records ++ [record] } s1).2,
       [Event.GetDNSConfiguration,
        Event.SetDNSConfiguration { old with Records := old.Records ++ [record] }]⟩ := by
  simp only [updateStrato, hget, hc, if_true, Bool.false_eq_true, if_false]
  exact run_eta _ _

theorem updateStrato_remove_absent {σ : Type} (client : StratoClient σ) (record : DNSRecord)
    (s s1 : σ) (old : DNSConfig) (hget : client.GetDNSConfiguration s = (.ok old, s1))
    (hc : contains old.Records record = false) :
    updateStrato client record false s = ⟨.ok (), s1, [Event.GetDNSConfiguration]⟩ := by
  have hlen := (removeRecord_length_eq_iff old.Records record).2 hc
  simp only [updateStrato, hget, Bool.false_eq_true, if_false, hlen, if_true]

theorem updateStrato_remove_present {σ : Type} (client : StratoClient σ) (record : DNSRecord)
    (s s1 : σ) (old : DNSConfig) (hget : client.GetDNSConfiguration s = (.ok old, s1))
    (hc : contains old.Records record = true) :
    updateStrato client record false s =
      ⟨(client.SetDNSConfiguration { old with Records := removeRecord old.Records record } s1).1,
       (client.SetDNSConfiguration { old with Records := removeRecord old.Records record } s1).2,
       [Event.GetDNSConfiguration,
        Event.SetDNSConfiguration { old with Records := removeRecord old.Records record }]⟩ := by
  have hlen : ¬ (removeRecord old.Records record).length = old.Records.length := by
    intro h
    rw [(removeRecord_length_eq_iff old.Records record).1 h] at hc
    exact Bool.noConfusion hc
  simp only [updateStrato, hget, Bool.false_eq_true, if_false, hlen]
  exact run_eta _ _

theorem updateStrato_get_error {σ : Type} (client : StratoClient σ) (record : DNSRecord)
    (add : Bool) (s s1 : σ) (err : String)
    (hget : client.GetDNSConfiguration s = (.error err, s1)) :
    updateStrato client record add s = ⟨.error err, s1, [Event.GetDNSConfiguration]⟩ := by
  simp only [updateStrato, hget]

/-! ## The locked update and the check after it -/

theorem reconcile_of_update_error {σ : Type} (client : StratoClient σ) (record : DNSRecord)
    (add : Bool) (s : σ) (err : String)
    (hupd : (updateStrato client record add s).result = .error err) :
    reconcile client record add s =
      ⟨.error err, (updateStrato client record add s).remote,
       Event.Lock :: (updateStrato client record add s).trace ++ [Event.Unlock]⟩ := by
  simp only [reconcile, hupd]

theorem reconcile_of_refetch_error {σ : Type} (client : StratoClient σ) (record : DNSRecord)
    (add : Bool) (s s3 : σ) (err : String)
    (hupd : (updateStrato client record add s).result = .ok ())
    (hget : client.GetDNSConfiguration (updateStrato client record add s).remote
      = (.error err, s3)) :
    reconcile client record add s =
      ⟨.error err, s3,
       (Event.Lock :: (updateStrato client record add s).trace ++ [Event.Unlock])
         ++ [Event.GetDNSConfiguration]⟩ := by
  simp only [reconcile, hupd, hget]

theorem reconcile_of_refetch_ok {σ : Type} (client : StratoClient σ) (record : DNSRecord)
    (add : Bool) (s s3 : σ) (updated : DNSConfig)
    (hupd : (updateStrato client record add s).result = .ok ())
    (hget : client.GetDNSConfiguration (updateStrato client record add s).remote
      = (.ok updated, s3)) :
    reconcile client record add s =
      ⟨if add then
          (if contains updated.Records record then .ok () else .error "failed to add new record")
        else
          (if contains updated.Records record then .error "failed to remove record" else .ok ()),
       s3,
       (Event.Lock :: (updateStrato client record add s).trace ++ [Event.Unlock])
         ++ [Event.GetDNSConfiguration]⟩ := by
  simp only [reconcile, hupd, hget]
  cases add <;> cases contains updated.Records record <;> simp

theorem contains_append_self (records : List DNSRecord) (record : DNSRecord) :
    contains (records ++ [record]) record = true :=
  (contains_iff_mem _ _).2 (by simp)

theorem contains_removeRecord (records : List DNSRecord) (record : DNSRecord) :
    contains (removeRecord records record) record = false := by
  cases h : contains (removeRecord records record) record with
  | false => rfl
  | true =>
    have hmem := (contains_iff_mem _ _).1 h
    rw [removeRecord_eq_filter] at hmem
    have := (List.mem_filter.1 hmem).2
    simp at this

theorem faithful_get {σ : Type} {client : StratoClient σ} {view : σ → DNSConfig}
    (hf : Faithful client view) (s : σ) :
    client.GetDNSConfiguration s = (.ok (view s), (client.GetDNSConfiguration s).2) ∧
    view (client.GetDNSConfiguration s).2 = view s := by
  refine ⟨?_, (hf.1 s).2⟩
  apply Prod.ext
  · exact (hf.1 s).1
  · rfl

/-- The zone after the update of a faithful provider. -/
theorem updateStrato_faithful {σ : Type} {client : StratoClient σ} {view : σ → DNSConfig}
    (hf : Faithful client view) (record : DNSRecord) (add : Bool) (s : σ) :
    (updateStrato client record add s).result = .ok () ∧
    view (updateStrato client record add s).remote =
      (if add then
        (if contains (view s).Records record then view s
         else { view s with Records := (view s).Records ++ [record] })
       else
        (if contains (view s).Records record
         then { view s with Records := removeRecord (view s).Records record }
         else view s)) ∧
    (updateStrato client record add s).trace =
      Event.GetDNSConfiguration ::
        (if add then
          (if contains (view s).Records record then []
           else [Event.SetDNSConfiguration
                  { view s with Records := (view s).Records ++ [record] }])
         else
          (if contains (view s).Records record
           then [Event.SetDNSConfiguration
                  { view s with Records := removeRecord (view s).Records record }]
           else [])) := by
  obtain ⟨hget, hview⟩ := faithful_get hf s
  cases add <;> cases hc : contains (view s).Records record
  · rw [updateStrato_remove_absent client record s _ _ hget hc]
    simp [hview]
  · rw [updateStrato_remove_present client record s _ _ hget hc]
    simp [hf.2]
  · rw [updateStrato_add_absent client record s _ _ hget hc]
    simp [hf.2]
  · rw [updateStrato_add_present client record s _ _ hget hc]
    simp [hview]

/-- A full `reconcile` against a faithful provider succeeds and leaves the
zone that `updateStrato` computed. -/
theorem reconcile_faithful {σ : Type} {client : StratoClient σ} {view : σ → DNSConfig}
    (hf : Faithful client view) (record : DNSRecord) (add : Bool) (s : σ) :
    (reconcile client record add s).result = .ok () ∧
    view (reconcile client record add s).remote
      = view (updateStrato client record add s).remote ∧
    (reconcile client record add s).trace =
      (Event.Lock :: (updateStrato client record add s).trace ++ [Event.Unlock])
        ++ [Event.GetDNSConfiguration] := by
  obtain ⟨hres, hview, _⟩ := updateStrato_faithful hf record add s
  obtain ⟨hget, hview2⟩ := faithful_get hf (updateStrato client record add s).remote
  rw [reconcile_of_refetch_ok client record add s _ _ hres hget]
  refine ⟨?_, hview2, rfl⟩
  rw [hview]
  cases add <;> cases hc : contains (view s).Records record <;>
    simp [hc, contains_append_self, contains_removeRecord]

/-! ## Writes -/

theorem writes_updateStrato {σ : Type} (client : StratoClient σ) (record : DNSRecord)
    (add : Bool) (s s1 : σ) (old : DNSConfig)
    (hget : client.GetDNSConfiguration s = (.ok old, s1)) :
    writes (updateStrato client record add s).trace =
      (if add then
        (if contains old.Records record then []
         else [{ old with Records := old.Records ++ [record] }])
       else
        (if contains old.Records record
         then [{ old with Records := removeRecord old.Records record }]
         else [])) := by
  cases add <;> cases hc : contains old.Records record
  · rw [updateStrato_remove_absent client record s _ _ hget hc]; simp [writes]
  · rw [updateStrato_remove_present client record s _ _ hget hc]; simp [writes]
  · rw [updateStrato_add_absent client record s _ _ hget hc]; simp [writes]
  · rw [updateStrato_add_present client record s _ _ hget hc]; simp [writes]

theorem cleanUp_absent_faithful {σ : Type} (host : Host σ) (ch : ChallengeRequest)
    (cfg : stratoDNSProviderConfig) (secretCfg : stratoDNSProviderCredentials)
    (client : StratoClient σ) (view : σ → DNSConfig) (s : σ)
    (hres : Resolves host ch cfg secretCfg client) (hf : Faithful client view)
    (hc : contains (view s).Records (desiredRecord host.lower cfg ch) = false) :
    (CleanUp host ch s).result = .ok () ∧ writes (CleanUp host ch s).trace = [] ∧
    view (CleanUp host ch s).remote = view s := by
  unfold CleanUp
  rw [processRecord_of_resolves host ch cfg secretCfg client hres]
  obtain ⟨h1, h2, h3⟩ := reconcile_faithful hf (desiredRecord host.lower cfg ch) false s
  obtain ⟨_, u2, u3⟩ := updateStrato_faithful hf (desiredRecord host.lower cfg ch) false s
  refine ⟨h1, ?_, ?_⟩
  · rw [h3, u3]
    simp [hc, writes]
  · rw [h2, u2]
    simp [hc]

/-- C4: once the zone is fetched, `updateStrato` issues exactly one
`SetDNSConfiguration` call when (add and the record is not contained in the
fetched records) or (cleanup and the record is contained), and otherwise
issues none and returns success; a written record collection always differs
from the fetched one; and `CleanUp` of a record that a faithful provider does
not hold succeeds with zero writes and leaves the zone as it was. -/
theorem write_only_when_needed {σ : Type} (client : StratoClient σ) (record : DNSRecord)
    (add : Bool) (s s1 : σ) (old : DNSConfig)
    (hget : client.GetDNSConfiguration s = (.ok old, s1)) :
    (writes (updateStrato client record add s).trace).length
      = (if (add = true ∧ contains old.Records record = false) ∨
            (add = false ∧ contains old.Records record = true) then 1 else 0) ∧
    (¬ ((add = true ∧ contains old.Records record = false) ∨
        (add = false ∧ contains old.Records record = true)) →
      (updateStrato client record add s).result = .ok () ∧
      writes (updateStrato client record add s).trace = [] ∧
      (updateStrato client record add s).remote = s1) ∧
    (∀ w ∈ writes (updateStrato client record add s).trace, w.Records ≠ old.Records) ∧
    (∀ (host : Host σ) (ch : ChallengeRequest) (cfg : stratoDNSProviderConfig)
        (secretCfg : stratoDNSProviderCredentials) (view : σ → DNSConfig),
      Resolves host ch cfg secretCfg client → Faithful client view →
      contains (view s).Records (desiredRecord host.lower cfg ch) = false →
      (CleanUp host ch s).result = .ok () ∧ writes (CleanUp host ch s).trace = [] ∧
      view (CleanUp host ch s).remote = view s) := by
  refine ⟨?_, ?_, ?_, ?_⟩
  · rw [writes_updateStrato client record add s s1 old hget]
    cases add <;> cases hc : contains old.Records record <;> simp
  · intro hno
    cases add <;> cases hc : contains old.Records record
    · rw [updateStrato_remove_absent client record s _ _ hget hc]
      exact ⟨rfl, rfl, rfl⟩
    · exact absurd (Or.inr ⟨rfl, hc⟩) hno
    · exact absurd (Or.inl ⟨rfl, hc⟩) hno
    · rw [updateStrato_add_present client record s _ _ hget hc]
      exact ⟨rfl, rfl, rfl⟩
  · intro w hw
    rw [writes_updateStrato client record add s s1 old hget] at hw
    cases add <;> cases hc : contains old.Records record <;> simp [hc] at hw
    · subst hw
      intro heq
      have hlen := congrArg List.length heq
      rw [(removeRecord_length_eq_iff old.Records record).1 hlen] at hc
      exact Bool.noConfusion hc
    · subst hw
      intro heq
      have hlen := congrArg List.length heq
      simp at hlen
  · intro host ch cfg secretCfg view hres hf hc
    exact cleanUp_absent_faithful host ch cfg secretCfg client view s hres hf hc

/-- C4, instantiated: adding `sampleRecord` to a zone that holds only
`mailRecord` issues exactly one write. -/
theorem write_only_when_needed_witness :
    memoryClient.GetDNSConfiguration (zoneWith [mailRecord])
      = (.ok (zoneWith [mailRecord]), zoneWith [mailRecord]) ∧
    (writes (updateStrato memoryClient sampleRecord true (zoneWith [mailRecord])).trace).length
      = 1 :=
  ⟨rfl,
   (write_only_when_needed memoryClient sampleRecord true (zoneWith [mailRecord])
      (zoneWith [mailRecord]) (zoneWith [mailRecord]) rfl).1.trans (by decide)⟩

/-- C5: a configuration written by `updateStrato` has the DMARC and SPF markers
of the fetched one; for add its records are the fetched records with the
desired record appended at the end; for cleanup they are the fetched records
with every record equal to the desired one (type, prefix and value) removed
and every other record kept, in the original order and multiplicity, so that a
record with the same prefix and a different value stays. -/
theorem write_changes_only_record {σ : Type} (client : StratoClient σ) (record : DNSRecord)
    (add : Bool) (s s1 : σ) (old w : DNSConfig)
    (hget : client.GetDNSConfiguration s = (.ok old, s1))
    (hw : w ∈ writes (updateStrato client record add s).trace) :
    w.DMARCType = old.DMARCType ∧ w.SPFType = old.SPFType ∧
    (add = true → w.Records = old.Records ++ [record]) ∧
    (add = false →
      w.Records = old.Records.filter (fun entry => decide (entry ≠ record)) ∧
      w.Records.Sublist old.Records ∧
      record ∉ w.Records ∧
      (∀ entry : DNSRecord, entry ≠ record →
        w.Records.count entry = old.Records.count entry) ∧
      (∀ entry ∈ old.Records, entry.Prefix = record.Prefix → entry.Value ≠ record.Value →
        entry ∈ w.Records)) := by
  rw [writes_updateStrato client record add s s1 old hget] at hw
  cases add <;> cases hc : contains old.Records record <;> simp [hc] at hw
  · subst hw
    refine ⟨rfl, rfl, fun h => Bool.noConfusion h, fun _ => ?_⟩
    have hfil := removeRecord_eq_filter old.Records record
    refine ⟨hfil, ?_, ?_, ?_, ?_⟩
    · show (removeRecord old.Records record).Sublist old.Records
      rw [hfil]
      exact List.filter_sublist _
    · show record ∉ removeRecord old.Records record
      intro hmem
      have := (contains_iff_mem _ _).2 hmem
      rw [contains_removeRecord] at this
      exact Bool.noConfusion this
    · intro entry hne
      show (removeRecord old.Records record).count entry = old.Records.count entry
      rw [hfil]
      exact List.count_filter (by simpa using hne)
    · intro entry hmem _ hval
      show entry ∈ removeRecord old.Records record
      rw [hfil]
      refine List.mem_filter.2 ⟨hmem, ?_⟩
      have hne : entry ≠ record := fun heq => hval (by rw [heq])
      simpa using hne
  · subst hw
    exact ⟨rfl, rfl, fun _ => rfl, fun h => Bool.noConfusion h⟩

/-- C5, instantiated: cleaning `sampleRecord` out of a zone that also holds
`mailRecord` and `siblingRecord` writes the zone with just those two. -/
theorem write_changes_only_record_witness :
    memoryClient.GetDNSConfiguration (zoneWith [mailRecord, sampleRecord, siblingRecord])
      = (.ok (zoneWith [mailRecord, sampleRecord, siblingRecord]),
         zoneWith [mailRecord, sampleRecord, siblingRecord]) ∧
    zoneWith [mailRecord, siblingRecord] ∈
      writes (updateStrato memoryClient sampleRecord false
        (zoneWith [mailRecord, sampleRecord, siblingRecord])).trace ∧
    siblingRecord ∈ (zoneWith [mailRecord, siblingRecord]).Records :=
  ⟨rfl, by decide,
   ((write_changes_only_record memoryClient sampleRecord false
      (zoneWith [mailRecord, sampleRecord, siblingRecord])
      (zoneWith [mailRecord, sampleRecord, siblingRecord])
      (zoneWith [mailRecord, sampleRecord, siblingRecord])
      (zoneWith [mailRecord, siblingRecord]) rfl (by decide)).2.2.2 rfl).2.2.2.2
        siblingRecord (by decide) (by decide) (by decide)⟩

/-! ## Post-condition -/

theorem updateStrato_always_succeeds {σ : Type} (client : StratoClient σ)
    (hok : AlwaysSucceeds client) (record : DNSRecord) (add : Bool) (s : σ) :
    (updateStrato client record add s).result = .ok () := by
  obtain ⟨old, hold⟩ := hok.1 s
  have hget : client.GetDNSConfiguration s = (.ok old, (client.GetDNSConfiguration s).2) :=
    Prod.ext hold rfl
  cases add <;> cases hc : contains old.Records record
  · rw [updateStrato_remove_absent client record s _ _ hget hc]
  · rw [updateStrato_remove_present client record s _ _ hget hc]
    exact hok.2 _ _
  · rw [updateStrato_add_absent client record s _ _ hget hc]
    exact hok.2 _ _
  · rw [updateStrato_add_present client record s _ _ hget hc]

theorem processRecord_ok_resolves {σ : Type} (host : Host σ) (ch : ChallengeRequest)
    (add : Bool) (s : σ) (h : (processRecord host ch add s).result = .ok ()) :
    ∃ (cfg : stratoDNSProviderConfig) (secretCfg : stratoDNSProviderCredentials)
      (client : StratoClient σ), Resolves host ch cfg secretCfg client := by
  cases h1 : loadConfig host.jsonUnmarshal ch.Config with
  | error err => simp [processRecord, h1] at h
  | ok cfg =>
    cases h2 : loadSecretConfig host.getSecret cfg.SecretRef ch.ResourceNamespace with
    | error err => simp [processRecord, h1, h2] at h
    | ok secretCfg =>
      cases h3 : prevalidate cfg ch with
      | error err => simp [processRecord, h1, h2, h3] at h
      | ok u =>
        cases h4 : host.NewStratoClient cfg.API secretCfg.Identity secretCfg.Password
            cfg.Order cfg.Domain with
        | error err => simp [processRecord, h1, h2, h3, h4] at h
        | ok client => exact ⟨cfg, secretCfg, client, h1, h2, h3, h4⟩

theorem reconcile_ok_postcondition {σ : Type} (client : StratoClient σ) (record : DNSRecord)
    (add : Bool) (s : σ) (h : (reconcile client record add s).result = .ok ()) :
    ∃ updated : DNSConfig,
      (client.GetDNSConfiguration (updateStrato client record add s).remote).1 = .ok updated ∧
      contains updated.Records record = add := by
  cases hupd : (updateStrato client record add s).result with
  | error err =>
    rw [reconcile_of_update_error client record add s err hupd] at h
    cases h
  | ok u =>
    rcases hget : client.GetDNSConfiguration (updateStrato client record add s).remote
      with ⟨res, s3⟩
    cases res with
    | error err =>
      rw [reconcile_of_refetch_error client record add s s3 err hupd hget] at h
      cases h
    | ok updated =>
      rw [reconcile_of_refetch_ok client record add s s3 updated hupd hget] at h
      refine ⟨updated, rfl, ?_⟩
      cases add <;> cases hc : contains updated.Records record <;> simp [hc] at h ⊢

/-- C3: `processRecord` returns success only if the request resolved and the
configuration fetched after the update satisfies the post-condition (the
derived record is contained in it for add, not contained for cleanup).  When
the request resolves and every provider call reports success, the result is
decided by that configuration alone: for add, success if the record is
contained and the error "failed to add new record" if not; for cleanup,
success if it is not contained and the error "failed to remove record" if it
is.  So `Present` fails when the fetch after a successful write omits the
record. -/
theorem postcondition_enforced {σ : Type} (host : Host σ) (ch : ChallengeRequest)
    (add : Bool) (s : σ) :
    ((processRecord host ch add s).result = .ok () →
      ∃ (cfg : stratoDNSProviderConfig) (secretCfg : stratoDNSProviderCredentials)
        (client : StratoClient σ) (updated : DNSConfig),
        Resolves host ch cfg secretCfg client ∧
        (client.GetDNSConfiguration
          (updateStrato client (desiredRecord host.lower cfg ch) add s).remote).1
            = .ok updated ∧
        contains updated.Records (desiredRecord host.lower cfg ch) = add) ∧
    (∀ (cfg : stratoDNSProviderConfig) (secretCfg : stratoDNSProviderCredentials)
        (client : StratoClient σ),
      Resolves host ch cfg secretCfg client → AlwaysSucceeds client →
      ∃ updated : DNSConfig,
        (client.GetDNSConfiguration
          (updateStrato client (desiredRecord host.lower cfg ch) add s).remote).1
            = .ok updated ∧
        (processRecord host ch add s).result =
          (if add then
            (if contains updated.Records (desiredRecord host.lower cfg ch) then .ok ()
             else .error "failed to add new record")
           else
            (if contains updated.Records (desiredRecord host.lower cfg ch)
             then .error "failed to remove record" else .ok ())) ∧
        (add = true → contains updated.Records (desiredRecord host.lower cfg ch) = false →
          (Present host ch s).result = .error "failed to add new record")) := by
  constructor
  · intro h
    obtain ⟨cfg, secretCfg, client, hres⟩ := processRecord_ok_resolves host ch add s h
    rw [processRecord_of_resolves host ch cfg secretCfg client hres] at h
    obtain ⟨updated, h1, h2⟩ := reconcile_ok_postcondition client _ add s h
    exact ⟨cfg, secretCfg, client, updated, hres, h1, h2⟩
  · intro cfg secretCfg client hres hok
    have hupd := updateStrato_always_succeeds client hok (desiredRecord host.lower cfg ch) add s
    obtain ⟨updated, hupdated⟩ :=
      hok.1 (updateStrato client (desiredRecord host.lower cfg ch) add s).remote
    have hget : client.GetDNSConfiguration
        (updateStrato client (desiredRecord host.lower cfg ch) add s).remote
        = (.ok updated, (client.GetDNSConfiguration
            (updateStrato client (desiredRecord host.lower cfg ch) add s).remote).2) :=
      Prod.ext hupdated rfl
    have hrun := reconcile_of_refetch_ok client (desiredRecord host.lower cfg ch) add s _
      updated hupd hget
    have hproc := processRecord_of_resolves host ch cfg secretCfg client hres add s
    refine ⟨updated, hupdated, ?_, ?_⟩
    · rw [hproc, hrun]
    · intro hadd hc
      subst hadd
      unfold Present
      rw [hproc, hrun]
      simp [hc]

/-- C3, instantiated: a provider that acknowledges the write and drops it makes
`Present` fail with "failed to add new record". -/
theorem postcondition_enforced_witness :
    Resolves (hostWith forgetfulClient) subZoneRequest exampleConfig sampleCredentials
      forgetfulClient ∧
    AlwaysSucceeds forgetfulClient ∧
    (Present (hostWith forgetfulClient) subZoneRequest (zoneWith [mailRecord])).result
      = .error "failed to add new record" := by
  have hres : Resolves (hostWith forgetfulClient) subZoneRequest exampleConfig sampleCredentials
      forgetfulClient := ⟨rfl, rfl, by decide, rfl⟩
  have hok : AlwaysSucceeds forgetfulClient := ⟨fun s => ⟨s, rfl⟩, fun _ _ => rfl⟩
  obtain ⟨updated, hupdated, _, hfail⟩ :=
    (postcondition_enforced (hostWith forgetfulClient) subZoneRequest true
      (zoneWith [mailRecord])).2 exampleConfig sampleCredentials forgetfulClient hres hok
  refine ⟨hres, hok, hfail rfl ?_⟩
  have hup : updated = zoneWith [mailRecord] := by
    have h2 : (forgetfulClient.GetDNSConfiguration
        (updateStrato forgetfulClient
          (desiredRecord (hostWith forgetfulClient).lower exampleConfig subZoneRequest) true
          (zoneWith [mailRecord])).remote).1 = .ok (zoneWith [mailRecord]) := by decide
    rw [h2] at hupdated
    injection hupdated with h
    exact h.symm
  rw [hup]
  decide

/-! ## Traces and the lock -/

theorem updateStrato_trace_shape {σ : Type} (client : StratoClient σ) (record : DNSRecord)
    (add : Bool) (s : σ) :
    (updateStrato client record add s).trace = [Event.GetDNSConfiguration] ∨
    ∃ cfg, (updateStrato client record add s).trace
      = [Event.GetDNSConfiguration, Event.SetDNSConfiguration cfg] := by
  rcases hget : client.GetDNSConfiguration s with ⟨res, s1⟩
  cases res with
  | error err =>
    rw [updateStrato_get_error client record add s s1 err hget]
    exact Or.inl rfl
  | ok old =>
    cases add <;> cases hc : contains old.Records record
    · rw [updateStrato_remove_absent client record s _ _ hget hc]; exact Or.inl rfl
    · rw [updateStrato_remove_present client record s _ _ hget hc]; exact Or.inr ⟨_, rfl⟩
    · rw [updateStrato_add_absent client record s _ _ hget hc]; exact Or.inr ⟨_, rfl⟩
    · rw [updateStrato_add_present client record s _ _ hget hc]; exact Or.inl rfl

theorem reconcile_trace_shape {σ : Type} (client : StratoClient σ) (record : DNSRecord)
    (add : Bool) (s : σ) :
    (reconcile client record add s).trace
      = Event.Lock :: (updateStrato client record add s).trace ++ [Event.Unlock] ∨
    (reconcile client record add s).trace
      = (Event.Lock :: (updateStrato client record add s).trace ++ [Event.Unlock])
          ++ [Event.GetDNSConfiguration] := by
  cases hupd : (updateStrato client record add s).result with
  | error err =>
    rw [reconcile_of_update_error client record add s err hupd]
    exact Or.inl rfl
  | ok u =>
    rcases hget : client.GetDNSConfiguration (updateStrato client record add s).remote
      with ⟨res, s3⟩
    cases res with
    | error err =>
      rw [reconcile_of_refetch_error client record add s s3 err hupd hget]
      exact Or.inr rfl
    | ok updated =>
      rw [reconcile_of_refetch_ok client record add s s3 updated hupd hget]
      exact Or.inr rfl

theorem processRecord_trace_cases {σ : Type} (host : Host σ) (ch : ChallengeRequest)
    (add : Bool) (s : σ) :
    (processRecord host ch add s).trace = [] ∨
    ∃ (client : StratoClient σ) (record : DNSRecord),
      processRecord host ch add s = reconcile client record add s := by
  unfold processRecord
  cases loadConfig host.jsonUnmarshal ch.Config with
  | error err => exact Or.inl rfl
  | ok cfg =>
    dsimp only
    cases loadSecretConfig host.getSecret cfg.SecretRef ch.ResourceNamespace with
    | error err => exact Or.inl rfl
    | ok secretCfg =>
      dsimp only
      cases prevalidate cfg ch with
      | error err => exact Or.inl rfl
      | ok u =>
        dsimp only
        cases host.NewStratoClient cfg.API secretCfg.Identity secretCfg.Password
            cfg.Order cfg.Domain with
        | error err => exact Or.inl rfl
        | ok client => exact Or.inr ⟨client, _, rfl⟩

theorem processRecord_trace_shape {σ : Type} (host : Host σ) (ch : ChallengeRequest)
    (add : Bool) (s : σ) :
    (processRecord host ch add s).trace = [] ∨
    (processRecord host ch add s).trace
      = [Event.Lock, Event.GetDNSConfiguration, Event.Unlock] ∨
    (processRecord host ch add s).trace
      = [Event.Lock, Event.GetDNSConfiguration, Event.Unlock, Event.GetDNSConfiguration] ∨
    (∃ cfg, (processRecord host ch add s).trace
      = [Event.Lock, Event.GetDNSConfiguration, Event.SetDNSConfiguration cfg, Event.Unlock]) ∨
    (∃ cfg, (processRecord host ch add s).trace
      = [Event.Lock, Event.GetDNSConfiguration, Event.SetDNSConfiguration cfg, Event.Unlock,
         Event.GetDNSConfiguration]) := by
  rcases processRecord_trace_cases host ch add s with h | ⟨client, record, h⟩
  · exact Or.inl h
  · rw [h]
    rcases reconcile_trace_shape client record add s with hr | hr <;>
      rcases updateStrato_trace_shape client record add s with hu | ⟨cfg, hu⟩ <;>
      rw [hr, hu]
    · exact Or.inr (Or.inl rfl)
    · exact Or.inr (Or.inr (Or.inr (Or.inl ⟨cfg, rfl⟩)))
    · exact Or.inr (Or.inr (Or.inl rfl))
    · exact Or.inr (Or.inr (Or.inr (Or.inr ⟨cfg, rfl⟩)))

/-- C9: in every run of `processRecord` the trace obeys the lock discipline:
each `SetDNSConfiguration` happens while the lock is held and after a fetch
under that same lock, the lock is taken at most once and every `Lock` has its
`Unlock` before the run ends.  The trace is empty or one of four sequences
that start with `Lock, GetDNSConfiguration`; and when `updateStrato` returns an
error, `processRecord` returns it with the lock released as the last event. -/
theorem lock_scopes_mutation {σ : Type} (host : Host σ) (ch : ChallengeRequest)
    (add : Bool) (s : σ) :
    lockDiscipline (processRecord host ch add s).trace = true ∧
    (processRecord host ch add s).trace.count Event.Lock ≤ 1 ∧
    (processRecord host ch add s).trace.count Event.Unlock
      = (processRecord host ch add s).trace.count Event.Lock ∧
    ((processRecord host ch add s).trace = [] ∨
     (processRecord host ch add s).trace
       = [Event.Lock, Event.GetDNSConfiguration, Event.Unlock] ∨
     (processRecord host ch add s).trace
       = [Event.Lock, Event.GetDNSConfiguration, Event.Unlock, Event.GetDNSConfiguration] ∨
     (∃ cfg, (processRecord host ch add s).trace
       = [Event.Lock, Event.GetDNSConfiguration, Event.SetDNSConfiguration cfg,
          Event.Unlock]) ∨
     (∃ cfg, (processRecord host ch add s).trace
       = [Event.Lock, Event.GetDNSConfiguration, Event.SetDNSConfiguration cfg, Event.Unlock,
          Event.GetDNSConfiguration])) ∧
    (∀ (cfg : stratoDNSProviderConfig) (secretCfg : stratoDNSProviderCredentials)
        (client : StratoClient σ) (err : String),
      Resolves host ch cfg secretCfg client →
      (updateStrato client (desiredRecord host.lower cfg ch) add s).result = .error err →
      (processRecord host ch add s).result = .error err ∧
      (processRecord host ch add s).trace
        = Event.Lock :: (updateStrato client (desiredRecord host.lower cfg ch) add s).trace
            ++ [Event.Unlock]) := by
  have hshape := processRecord_trace_shape host ch add s
  refine ⟨?_, ?_, ?_, hshape, ?_⟩
  · rcases hshape with h | h | h | ⟨cfg, h⟩ | ⟨cfg, h⟩ <;> rw [h] <;> rfl
  · rcases hshape with h | h | h | ⟨cfg, h⟩ | ⟨cfg, h⟩ <;> rw [h] <;> simp [List.count_cons]
  · rcases hshape with h | h | h | ⟨cfg, h⟩ | ⟨cfg, h⟩ <;> rw [h] <;> simp [List.count_cons]
  · intro cfg secretCfg client err hres hupd
    rw [processRecord_of_resolves host ch cfg secretCfg client hres,
      reconcile_of_update_error client _ add s err hupd]
    exact ⟨rfl, rfl⟩

/-- C9, instantiated: with a provider whose fetch fails, `Present` returns the
error and its trace is `Lock, GetDNSConfiguration, Unlock`. -/
theorem lock_scopes_mutation_witness :
    Resolves (hostWith offlineClient) subZoneRequest exampleConfig sampleCredentials
      offlineClient ∧
    (processRecord (hostWith offlineClient) subZoneRequest true (zoneWith [])).result
      = .error "connection refused" ∧
    (processRecord (hostWith offlineClient) subZoneRequest true (zoneWith [])).trace
      = [Event.Lock, Event.GetDNSConfiguration, Event.Unlock] := by
  have hres : Resolves (hostWith offlineClient) subZoneRequest exampleConfig sampleCredentials
      offlineClient := ⟨rfl, rfl, by decide, rfl⟩
  have h := (lock_scopes_mutation (hostWith offlineClient) subZoneRequest true
    (zoneWith [])).2.2.2.2 exampleConfig sampleCredentials offlineClient "connection refused"
    hres rfl
  exact ⟨hres, h.1, h.2⟩

/-! ## Repeated and paired calls against a faithful provider -/

theorem present_faithful {σ : Type} (host : Host σ) (ch : ChallengeRequest)
    (cfg : stratoDNSProviderConfig) (secretCfg : stratoDNSProviderCredentials)
    (client : StratoClient σ) (view : σ → DNSConfig) (s : σ)
    (hres : Resolves host ch cfg secretCfg client) (hf : Faithful client view) :
    (Present host ch s).result = .ok () ∧
    view (Present host ch s).remote =
      (if contains (view s).Records (desiredRecord host.lower cfg ch) then view s
       else { view s with Records := (view s).Records ++ [desiredRecord host.lower cfg ch] }) ∧
    writes (Present host ch s).trace =
      (if contains (view s).Records (desiredRecord host.lower cfg ch) then []
       else [{ view s with
                Records := (view s).Records ++ [desiredRecord host.lower cfg ch] }]) := by
  unfold Present
  rw [processRecord_of_resolves host ch cfg secretCfg client hres]
  obtain ⟨h1, h2, h3⟩ := reconcile_faithful hf (desiredRecord host.lower cfg ch) true s
  obtain ⟨_, u2, u3⟩ := updateStrato_faithful hf (desiredRecord host.lower cfg ch) true s
  refine ⟨h1, ?_, ?_⟩
  · rw [h2, u2]
    simp
  · rw [h3, u3]
    cases hc : contains (view s).Records (desiredRecord host.lower cfg ch) <;> simp [writes]

theorem cleanUp_faithful {σ : Type} (host : Host σ) (ch : ChallengeRequest)
    (cfg : stratoDNSProviderConfig) (secretCfg : stratoDNSProviderCredentials)
    (client : StratoClient σ) (view : σ → DNSConfig) (s : σ)
    (hres : Resolves host ch cfg secretCfg client) (hf : Faithful client view) :
    (CleanUp host ch s).result = .ok () ∧
    view (CleanUp host ch s).remote =
      { view s with
        Records := (view s).Records.filter
          (fun entry => decide (entry ≠ desiredRecord host.lower cfg ch)) } := by
  unfold CleanUp
  rw [processRecord_of_resolves host ch cfg secretCfg client hres]
  obtain ⟨h1, h2, _⟩ := reconcile_faithful hf (desiredRecord host.lower cfg ch) false s
  obtain ⟨_, u2, _⟩ := updateStrato_faithful hf (desiredRecord host.lower cfg ch) false s
  refine ⟨h1, ?_⟩
  rw [h2, u2]
  cases hc : contains (view s).Records (desiredRecord host.lower cfg ch)
  · have hlen := (removeRecord_length_eq_iff _ _).2 hc
    rw [removeRecord_eq_filter] at hlen
    have hfil := (List.filter_sublist
      (p := fun entry => decide (entry ≠ desiredRecord host.lower cfg ch))
      (view s).Records).eq_of_length hlen
    simp only [Bool.false_eq_true, if_false]
    rw [hfil]
  · simp only [Bool.false_eq_true, if_false, if_true, removeRecord_eq_filter]

theorem count_eq_zero_of_not_contains (records : List DNSRecord) (record : DNSRecord)
    (hc : contains records record = false) : records.count record = 0 := by
  apply List.count_eq_zero.2
  intro hmem
  rw [(contains_iff_mem _ _).2 hmem] at hc
  exact Bool.noConfusion hc

theorem one_le_count_of_contains (records : List DNSRecord) (record : DNSRecord)
    (hc : contains records record = true) : 1 ≤ records.count record :=
  List.count_pos_iff.2 ((contains_iff_mem _ _).1 hc)

/-- C1 (as stated, refuted): on a faithful provider whose zone already holds
the derived record twice, two `Present` calls both succeed and the final
configuration holds two records equal to the derived one, not exactly one. -/
theorem present_twice_keeps_duplicates :
    Resolves (hostWith memoryClient) subZoneRequest exampleConfig sampleCredentials
      memoryClient ∧
    Faithful memoryClient id ∧
    (Present (hostWith memoryClient) subZoneRequest
      (zoneWith [sampleRecord, sampleRecord])).result = .ok () ∧
    (Present (hostWith memoryClient) subZoneRequest
      (Present (hostWith memoryClient) subZoneRequest
        (zoneWith [sampleRecord, sampleRecord])).remote).result = .ok () ∧
    (Present (hostWith memoryClient) subZoneRequest
      (Present (hostWith memoryClient) subZoneRequest
        (zoneWith [sampleRecord, sampleRecord])).remote).remote.Records.count
          (desiredRecord (hostWith memoryClient).lower exampleConfig subZoneRequest) = 2 ∧
    (Present (hostWith memoryClient) subZoneRequest
      (Present (hostWith memoryClient) subZoneRequest
        (zoneWith [sampleRecord, sampleRecord])).remote).remote.Records.count
          (desiredRecord (hostWith memoryClient).lower exampleConfig subZoneRequest) ≠ 1 := by
  refine ⟨⟨rfl, rfl, by decide, rfl⟩, ⟨fun s => ⟨rfl, rfl⟩, fun cfg s => ⟨rfl, rfl⟩⟩,
    by decide, by decide, by decide, by decide⟩

/-- C1 (amended): for a request that resolves, on a faithful provider, two
`Present` calls in succession both succeed, the second issues no write and
leaves the zone as the first left it, and the final configuration holds the
derived record `max 1 k` times, where `k` is the number of copies in the
initial configuration: exactly once whenever the initial configuration held
at most one copy. -/
theorem present_twice {σ : Type} (host : Host σ) (ch : ChallengeRequest)
    (cfg : stratoDNSProviderConfig) (secretCfg : stratoDNSProviderCredentials)
    (client : StratoClient σ) (view : σ → DNSConfig) (s : σ)
    (hres : Resolves host ch cfg secretCfg client) (hf : Faithful client view) :
    (Present host ch s).result = .ok () ∧
    (Present host ch (Present host ch s).remote).result = .ok () ∧
    writes (Present host ch (Present host ch s).remote).trace = [] ∧
    view (Present host ch (Present host ch s).remote).remote
      = view (Present host ch s).remote ∧
    (view (Present host ch (Present host ch s).remote).remote).Records.count
        (desiredRecord host.lower cfg ch)
      = max 1 ((view s).Records.count (desiredRecord host.lower cfg ch)) ∧
    ((view s).Records.count (desiredRecord host.lower cfg ch) ≤ 1 →
      (view (Present host ch (Present host ch s).remote).remote).Records.count
        (desiredRecord host.lower cfg ch) = 1) := by
  obtain ⟨a1, a2, _⟩ := present_faithful host ch cfg secretCfg client view s hres hf
  obtain ⟨b1, b2, b3⟩ :=
    present_faithful host ch cfg secretCfg client view (Present host ch s).remote hres hf
  have hnow : contains (view (Present host ch s).remote).Records
      (desiredRecord host.lower cfg ch) = true := by
    rw [a2]
    cases hc : contains (view s).Records (desiredRecord host.lower cfg ch)
    · simp [contains_append_self]
    · simp [hc]
  rw [hnow] at b2 b3
  simp only [if_true] at b2 b3
  have hcount : (view (Present host ch s).remote).Records.count
      (desiredRecord host.lower cfg ch)
      = max 1 ((view s).Records.count (desiredRecord host.lower cfg ch)) := by
    rw [a2]
    cases hc : contains (view s).Records (desiredRecord host.lower cfg ch)
    · have h0 := count_eq_zero_of_not_contains _ _ hc
      simp [h0]
    · have h1 := one_le_count_of_contains _ _ hc
      simp only [if_true]
      omega
  refine ⟨a1, b1, b3, b2, ?_, ?_⟩
  · rw [b2, hcount]
  · intro hle
    rw [b2, hcount]
    omega

/-- C1 (amended), instantiated: presenting `subZoneRequest` twice on a zone
that holds only `mailRecord` leaves exactly one copy of the derived record. -/
theorem present_twice_witness :
    Resolves (hostWith memoryClient) subZoneRequest exampleConfig sampleCredentials
      memoryClient ∧
    Faithful memoryClient id ∧
    (Present (hostWith memoryClient) subZoneRequest
      (Present (hostWith memoryClient) subZoneRequest
        (zoneWith [mailRecord])).remote).remote.Records.count
          (desiredRecord (hostWith memoryClient).lower exampleConfig subZoneRequest) = 1 := by
  have hres : Resolves (hostWith memoryClient) subZoneRequest exampleConfig sampleCredentials
      memoryClient := ⟨rfl, rfl, by decide, rfl⟩
  have hf : Faithful memoryClient id := ⟨fun s => ⟨rfl, rfl⟩, fun cfg s => ⟨rfl, rfl⟩⟩
  exact ⟨hres, hf,
    (present_twice (hostWith memoryClient) subZoneRequest exampleConfig sampleCredentials
      memoryClient id (zoneWith [mailRecord]) hres hf).2.2.2.2.2 (by decide)⟩

/-- C2 (as stated, refuted): on a faithful provider whose zone already holds
the derived record, `Present` followed by `CleanUp` both succeed and leave an
empty record collection, not the collection from before `Present`. -/
theorem present_cleanup_drops_existing :
    Resolves (hostWith memoryClient) subZoneRequest exampleConfig sampleCredentials
      memoryClient ∧
    Faithful memoryClient id ∧
    (Present (hostWith memoryClient) subZoneRequest (zoneWith [sampleRecord])).result
      = .ok () ∧
    (CleanUp (hostWith memoryClient) subZoneRequest
      (Present (hostWith memoryClient) subZoneRequest
        (zoneWith [sampleRecord])).remote).result = .ok () ∧
    (CleanUp (hostWith memoryClient) subZoneRequest
      (Present (hostWith memoryClient) subZoneRequest
        (zoneWith [sampleRecord])).remote).remote.Records = [] ∧
    (CleanUp (hostWith memoryClient) subZoneRequest
      (Present (hostWith memoryClient) subZoneRequest
        (zoneWith [sampleRecord])).remote).remote.Records
      ≠ (zoneWith [sampleRecord]).Records := by
  refine ⟨⟨rfl, rfl, by decide, rfl⟩, ⟨fun s => ⟨rfl, rfl⟩, fun cfg s => ⟨rfl, rfl⟩⟩,
    by decide, by decide, by decide, by decide⟩

/-- C2 (amended): for a request that resolves, on a faithful provider,
`Present` followed by `CleanUp` both succeed and leave the DMARC and SPF
markers unchanged and the record collection equal to the initial one with
every record equal to the derived record removed; so the configuration is the
one before `Present` whenever that one did not hold the derived record. -/
theorem present_then_cleanup {σ : Type} (host : Host σ) (ch : ChallengeRequest)
    (cfg : stratoDNSProviderConfig) (secretCfg : stratoDNSProviderCredentials)
    (client : StratoClient σ) (view : σ → DNSConfig) (s : σ)
    (hres : Resolves host ch cfg secretCfg client) (hf : Faithful client view) :
    (Present host ch s).result = .ok () ∧
    (CleanUp host ch (Present host ch s).remote).result = .ok () ∧
    (view (CleanUp host ch (Present host ch s).remote).remote).Records
      = (view s).Records.filter
          (fun entry => decide (entry ≠ desiredRecord host.lower cfg ch)) ∧
    (view (CleanUp host ch (Present host ch s).remote).remote).DMARCType
      = (view s).DMARCType ∧
    (view (CleanUp host ch (Present host ch s).remote).remote).SPFType = (view s).SPFType ∧
    (contains (view s).Records (desiredRecord host.lower cfg ch) = false →
      view (CleanUp host ch (Present host ch s).remote).remote = view s) := by
  obtain ⟨a1, a2, _⟩ := present_faithful host ch cfg secretCfg client view s hres hf
  obtain ⟨b1, b2⟩ :=
    cleanUp_faithful host ch cfg secretCfg client view (Present host ch s).remote hres hf
  have hrec : (view (CleanUp host ch (Present host ch s).remote).remote).Records
      = (view s).Records.filter
          (fun entry => decide (entry ≠ desiredRecord host.lower cfg ch)) := by
    rw [b2, a2]
    cases hc : contains (view s).Records (desiredRecord host.lower cfg ch)
    · simp [List.filter_append]
    · simp
  have hd : (view (CleanUp host ch (Present host ch s).remote).remote).DMARCType
      = (view s).DMARCType := by
    rw [b2, a2]
    cases hc : contains (view s).Records (desiredRecord host.lower cfg ch) <;> simp
  have hs : (view (CleanUp host ch (Present host ch s).remote).remote).SPFType
      = (view s).SPFType := by
    rw [b2, a2]
    cases hc : contains (view s).Records (desiredRecord host.lower cfg ch) <;> simp
  refine ⟨a1, b1, hrec, hd, hs, ?_⟩
  intro hc
  have hlen := (removeRecord_length_eq_iff _ _).2 hc
  rw [removeRecord_eq_filter] at hlen
  have hfil := (List.filter_sublist
    (p := fun entry => decide (entry ≠ desiredRecord host.lower cfg ch))
    (view s).Records).eq_of_length hlen
  rw [hfil] at hrec
  cases hv : view (CleanUp host ch (Present host ch s).remote).remote with
  | mk d1 s1 r1 =>
    cases hw : view s with
    | mk d2 s2 r2 =>
      rw [hv, hw] at hrec hd hs
      simp only at hrec hd hs
      rw [hrec, hd, hs]

/-- C2 (amended), instantiated: `Present` then `CleanUp` of `subZoneRequest` on
a zone holding `mailRecord` and `siblingRecord` gives that zone back. -/
theorem present_then_cleanup_witness :
    Resolves (hostWith memoryClient) subZoneRequest exampleConfig sampleCredentials
      memoryClient ∧
    Faithful memoryClient id ∧
    (CleanUp (hostWith memoryClient) subZoneRequest
      (Present (hostWith memoryClient) subZoneRequest
        (zoneWith [mailRecord, siblingRecord])).remote).remote
      = zoneWith [mailRecord, siblingRecord] := by
  have hres : Resolves (hostWith memoryClient) subZoneRequest exampleConfig sampleCredentials
      memoryClient := ⟨rfl, rfl, by decide, rfl⟩
  have hf : Faithful memoryClient id := ⟨fun s => ⟨rfl, rfl⟩, fun cfg s => ⟨rfl, rfl⟩⟩
  exact ⟨hres, hf,
    (present_then_cleanup (hostWith memoryClient) subZoneRequest exampleConfig sampleCredentials
      memoryClient id (zoneWith [mailRecord, siblingRecord]) hres hf).2.2.2.2.2 (by decide)⟩

end Strato
